import Mathlib

/-!
Shallow embedding of the tap-race matchmaker
(`src/backend/src/matchmaker.ts`, class `TapRaceMatchmaker`).

JavaScript `Map`s are modelled as insertion-ordered association lists:
`get` finds the first entry with the key, `set` updates in place when the
key is present and appends otherwise, `delete` removes the entry, and
iteration (`forEach`, `Array.from(...).values()`) follows list order.
Wall-clock times (`Date.now()`, client timestamps) are `Int` milliseconds
passed in explicitly; `uuidv4()` is modelled by passing the fresh id as an
argument.  Socket emissions (`socket.emit`, `io.to(...).emit`) and
`setTimeout` scheduling are returned as an explicit list of effects.
-/

namespace TapRace

/-- Configuration constants of the class (lines 34-37 of the source). -/
def MATCH_SIZE : Nat := 2

def MATCH_DURATION : Int := 30000

def TAP_VALIDATION_WINDOW : Int := 100

def MAX_TAPS_PER_SECOND : Int := 10

/-- The `Player` interface (lines 4-12). -/
structure Player where
  id : String
  socketId : String
  username : String
  taps : Nat
  isReady : Bool
  lastTapTimestamp : Int
  validatedTaps : Nat
deriving DecidableEq, Repr

/-- `GameMatch.status` values (line 17). -/
inductive MatchStatus where
  | waiting
  | starting
  | active
  | finished
deriving DecidableEq, Repr

/-- The `GameMatch` interface (lines 14-22); `players` is an
insertion-ordered map from player id to `Player`. -/
structure GameMatch where
  id : String
  players : List (String × Player)
  status : MatchStatus
  startTime : Option Int
  endTime : Option Int
  duration : Int
  winner : Option String
deriving DecidableEq, Repr

/-- The mutable fields of `TapRaceMatchmaker` (lines 30-33):
`matches`, `queue.players`, `playerToMatch` and `playerQueue`. -/
structure MMState where
  matchesMap : List (String × GameMatch)
  queuePlayers : List (String × Player)
  playerToMatch : List (String × String)
  playerQueue : List (String × String)
deriving DecidableEq, Repr

/-! ### JavaScript `Map` primitives on association lists -/

def mapGet (m : List (String × α)) (k : String) : Option α :=
  (m.find? (fun e => e.1 = k)).map (·.2)

def mapHas (m : List (String × α)) (k : String) : Bool :=
  (m.find? (fun e => e.1 = k)).isSome

def mapSet (m : List (String × α)) (k : String) (v : α) : List (String × α) :=
  if mapHas m k then m.map (fun e => if e.1 = k then (k, v) else e)
  else m ++ [(k, v)]

def mapDelete (m : List (String × α)) (k : String) : List (String × α) :=
  m.filter (fun e => ¬ e.1 = k)

def mapValues (m : List (String × α)) : List α := m.map (·.2)

/-! ### Emitted effects

Each constructor records one `socket.emit` / `io.to(...).emit` call or one
`setTimeout` scheduling, in program order. -/

/-- One entry of the `results` array built in `endMatch` (lines 297-304). -/
structure ResultEntry where
  id : String
  username : String
  taps : Nat
  isWinner : Bool
deriving DecidableEq, Repr

inductive Effect where
  | errorMsg (socketId msg : String)
  | queueJoined (socketId : String) (position : Nat)
  | queueLeft (socketId : String)
  | matchFound (socketId matchId : String) (roster : List (String × String))
  | matchStarted (socketId matchId : String) (duration startTime : Int)
  | playerTapped (matchId playerId username : String) (tapCount : Nat)
  | tapConfirmed (socketId : String) (tapCount : Nat)
  | playerDisconnected (socketId playerId : String)
  | matchEnded (socketId matchId : String) (results : List ResultEntry)
      (winnerId : Option String)
  | schedStart (matchId : String) (delay : Int)
  | schedEnd (matchId : String) (delay : Int)
  | schedCleanup (matchId : String) (delay : Int)
deriving DecidableEq, Repr

/-- `validateTap` (lines 255-272).  Returns the boolean result together
with the player record, which the source mutates in place
(`player.lastTapTimestamp = currentTime`) exactly when the tap passes
both checks.  `currentTime` is the `Date.now()` read on entry. -/
def validateTap (player : Player) (timestamp currentTime : Int) :
    Bool × Player :=
  if |currentTime - timestamp| > TAP_VALIDATION_WINDOW then
    (false, player)
  else if currentTime - player.lastTapTimestamp < 1000 / MAX_TAPS_PER_SECOND then
    (false, player)
  else
    (true, { player with lastTapTimestamp := currentTime })

/-- The winner fold of `endMatch` (lines 282-290): `maxTaps` starts at
`-1`, `winner` at `null`, and a player replaces the current winner only
with strictly more validated taps. -/
def computeWinner (ps : List Player) : Option Player :=
  (ps.foldl
    (fun acc p =>
      if (p.validatedTaps : Int) > acc.1 then ((p.validatedTaps : Int), some p)
      else acc)
    ((-1 : Int), (none : Option Player))).2

/-- One insertion step of the stable descending sort modelling
`Array.prototype.sort((a, b) => b.taps - a.taps)` (line 304): the new
entry is placed after every already-sorted entry with strictly more taps
and before the rest, so equal-tap entries keep their original order. -/
def insertDesc (x : ResultEntry) : List ResultEntry → List ResultEntry
  | [] => [x]
  | y :: ys => if y.taps > x.taps then y :: insertDesc x ys else x :: y :: ys

/-- ECMAScript `sort` is stable; this insertion sort realises the stable
descending-by-`taps` order the comparator `b.taps - a.taps` induces. -/
def sortByTapsDesc (rs : List ResultEntry) : List ResultEntry :=
  rs.foldr insertDesc []

/-- Reference recursion for the winner fold: the first player of
`w :: ps` attaining the maximal `validatedTaps` (strict improvement is
required to displace the current leader). -/
def firstMax (w : Player) : List Player → Player
  | [] => w
  | p :: ps =>
    if p.validatedTaps > w.validatedTaps then firstMax p ps else firstMax w ps

/-- The unsorted `results` entries in roster order (lines 297-303). -/
def rosterEntries (m : GameMatch) : List ResultEntry :=
  (mapValues m.players).map (fun p =>
    ⟨p.id, p.username, p.validatedTaps, decide (m.winner = some p.id)⟩)

/-- The `results` array of `endMatch` (lines 297-304), built from the
match after `winner` was assigned. -/
def matchResults (m : GameMatch) : List ResultEntry :=
  sortByTapsDesc (rosterEntries m)

/-- The in-place mutation `endMatch` performs on the match object
(lines 278-294): set `status = finished`, `endTime = now`, and overwrite
`winner` exactly when the winner fold produced a player (`if (winner)`).  -/
def endedMatch (m0 : GameMatch) (now : Int) : GameMatch :=
  match computeWinner (mapValues m0.players) with
  | some w => { m0 with status := .finished, endTime := some now, winner := some w.id }
  | none => { m0 with status := .finished, endTime := some now }

/-- `endMatch` (lines 274-323) up to the scheduled cleanup body: missing
match is a silent no-op; otherwise set `status = finished`,
`endTime = now`, assign `winner` when the fold found one, broadcast
`match_ended` to the roster and schedule cleanup after 5000 ms. -/
def endMatch (matchId : String) (now : Int) (s : MMState) :
    MMState × List Effect :=
  match mapGet s.matchesMap matchId with
  | none => (s, [])
  | some m0 =>
    let m2 : GameMatch := endedMatch m0 now
    let effects :=
      (mapValues m2.players).map
        (fun p => Effect.matchEnded p.socketId matchId (matchResults m2) m2.winner)
      ++ [Effect.schedCleanup matchId 5000]
    ({ s with matchesMap := mapSet s.matchesMap matchId m2 }, effects)

/-- The cleanup body scheduled by `endMatch` (lines 317-322): delete the
match and the roster's `playerToMatch` entries.  The closure captures the
live match object, which coincides with the map entry while the match is
still registered; once it is gone the roster's index entries were already
removed, so the run is a no-op. -/
def cleanupMatch (matchId : String) (s : MMState) : MMState :=
  match mapGet s.matchesMap matchId with
  | none => s
  | some m =>
    { s with
      matchesMap := mapDelete s.matchesMap matchId,
      playerToMatch :=
        (mapValues m.players).foldl (fun pm p => mapDelete pm p.id)
          s.playerToMatch }

/-- `startMatch` (lines 171-190): missing match is a silent no-op;
otherwise — with no status guard — set `status = active`,
`startTime = now`, broadcast `match_started` to the roster and schedule
`endMatch` after `duration` ms. -/
def startMatch (matchId : String) (now : Int) (s : MMState) :
    MMState × List Effect :=
  match mapGet s.matchesMap matchId with
  | none => (s, [])
  | some m0 =>
    let m : GameMatch := { m0 with status := .active, startTime := some now }
    let effects :=
      (mapValues m.players).map
        (fun p => Effect.matchStarted p.socketId matchId m.duration now)
      ++ [Effect.schedEnd matchId m.duration]
    ({ s with matchesMap := mapSet s.matchesMap matchId m }, effects)

/-- `handlePlayerReady` (lines 192-213): set the player's `isReady`, then
start the match early when every roster member is ready and the status is
still `waiting`. -/
def handlePlayerReady (socketId userId matchId : String) (now : Int)
    (s : MMState) : MMState × List Effect :=
  match mapGet s.matchesMap matchId with
  | none => (s, [Effect.errorMsg socketId "Match not found"])
  | some m0 =>
    match mapGet m0.players userId with
    | none => (s, [Effect.errorMsg socketId "Player not in match"])
    | some player =>
      let m : GameMatch :=
        { m0 with players :=
            mapSet m0.players userId { player with isReady := true } }
      let s1 : MMState := { s with matchesMap := mapSet s.matchesMap matchId m }
      if (mapValues m.players).all (·.isReady) = true ∧
          m.status = MatchStatus.waiting then
        startMatch matchId now s1
      else (s1, [])

/-- `handleTap` (lines 215-253): unknown match, inactive status and
unknown roster member fail — in that order — with a single `error`
emission and no state change; a tap rejected by `validateTap` emits the
fixed message `"Invalid tap detected"`; an accepted tap bumps
`validatedTaps` and `taps`, broadcasts `player_tapped` to the match room
and confirms to the submitter. -/
def handleTap (socketId userId matchId : String) (timestamp now : Int)
    (s : MMState) : MMState × List Effect :=
  match mapGet s.matchesMap matchId with
  | none => (s, [Effect.errorMsg socketId "Match not found"])
  | some m0 =>
    if m0.status ≠ MatchStatus.active then
      (s, [Effect.errorMsg socketId "Match not active"])
    else
      match mapGet m0.players userId with
      | none => (s, [Effect.errorMsg socketId "Player not in match"])
      | some player =>
        let vr := validateTap player timestamp now
        if vr.1 = false then
          (s, [Effect.errorMsg socketId "Invalid tap detected"])
        else
          let p2 : Player :=
            { vr.2 with
              validatedTaps := vr.2.validatedTaps + 1, taps := vr.2.taps + 1 }
          let m : GameMatch := { m0 with players := mapSet m0.players userId p2 }
          ({ s with matchesMap := mapSet s.matchesMap matchId m },
           [Effect.playerTapped matchId userId p2.username p2.validatedTaps,
            Effect.tapConfirmed socketId p2.validatedTaps])

/-- `createMatch` (lines 124-169): take the first `MATCH_SIZE` queued
players in insertion order, move each from the queue indices into
`playerToMatch`, register the new `waiting` match, unicast `match_found`
to each participant and schedule the deferred start after 2000 ms.  The
fresh `uuidv4()` is passed in as `newMatchId`. -/
def createMatch (newMatchId : String) (s : MMState) : MMState × List Effect :=
  if s.queuePlayers.length < MATCH_SIZE then (s, [])
  else
    let chosen := (mapValues s.queuePlayers).take MATCH_SIZE
    let pr := chosen.foldl
      (fun (acc : List (String × Player) × MMState) p =>
        (mapSet acc.1 p.id p,
         { acc.2 with
           queuePlayers := mapDelete acc.2.queuePlayers p.id,
           playerQueue := mapDelete acc.2.playerQueue p.id,
           playerToMatch := mapSet acc.2.playerToMatch p.id newMatchId }))
      (([] : List (String × Player)), s)
    let m : GameMatch :=
      ⟨newMatchId, pr.1, .waiting, none, none, MATCH_DURATION, none⟩
    let s2 : MMState := { pr.2 with matchesMap := mapSet pr.2.matchesMap newMatchId m }
    let roster := (mapValues pr.1).map (fun p => (p.id, p.username))
    let effects :=
      (mapValues pr.1).map
        (fun p => Effect.matchFound p.socketId newMatchId roster)
      ++ [Effect.schedStart newMatchId 2000]
    (s2, effects)

/-- `handleJoinQueue` (lines 70-106): reject a player already indexed in
`playerToMatch` or `playerQueue`; otherwise enqueue a fresh `Player`,
emit `queue_joined` with the new queue size, and call `createMatch` when
the queue reached `MATCH_SIZE`. -/
def handleJoinQueue (socketId userId username newMatchId : String)
    (s : MMState) : MMState × List Effect :=
  if mapHas s.playerToMatch userId = true then
    (s, [Effect.errorMsg socketId "Already in a match"])
  else if mapHas s.playerQueue userId = true then
    (s, [Effect.errorMsg socketId "Already in queue"])
  else
    let player : Player := ⟨userId, socketId, username, 0, false, 0, 0⟩
    let s1 : MMState :=
      { s with
        queuePlayers := mapSet s.queuePlayers userId player,
        playerQueue := mapSet s.playerQueue userId "main" }
    let evs := [Effect.queueJoined socketId s1.queuePlayers.length]
    if s1.queuePlayers.length ≥ MATCH_SIZE then
      let pr := createMatch newMatchId s1
      (pr.1, evs ++ pr.2)
    else (s1, evs)

/-- `handleLeaveQueue` (lines 108-122). -/
def handleLeaveQueue (socketId userId : String) (s : MMState) :
    MMState × List Effect :=
  if mapHas s.playerQueue userId = false then
    (s, [Effect.errorMsg socketId "Not in queue"])
  else
    ({ s with
       queuePlayers := mapDelete s.queuePlayers userId,
       playerQueue := mapDelete s.playerQueue userId },
     [Effect.queueLeft socketId])

/-- First phase of `handleDisconnect` (lines 329-334): drop every queue
entry whose player carries the disconnected socket id. -/
def removeFromQueueBySocket (socketId : String) (s : MMState) : MMState :=
  s.queuePlayers.foldl
    (fun st e =>
      if e.2.socketId = socketId then
        { st with
          queuePlayers := mapDelete st.queuePlayers e.1,
          playerQueue := mapDelete st.playerQueue e.1 }
      else st)
    s

/-- One inner step of the second phase of `handleDisconnect`
(lines 338-352), processing one snapshot roster entry `e` of match
`matchId`: when the entry's socket matches, remove the player from the
roster and from `playerToMatch`, notify the remaining roster, and run
`endMatch` when the roster emptied. -/
def disconnectStep (socketId matchId : String) (now : Int)
    (acc : MMState × List Effect) (e : String × Player) :
    MMState × List Effect :=
  if e.2.socketId = socketId then
    match mapGet acc.1.matchesMap matchId with
    | none => acc
    | some m0 =>
      let m : GameMatch := { m0 with players := mapDelete m0.players e.1 }
      let s1 : MMState :=
        { acc.1 with
          matchesMap := mapSet acc.1.matchesMap matchId m,
          playerToMatch := mapDelete acc.1.playerToMatch e.1 }
      let evs :=
        (mapValues m.players).map
          (fun p => Effect.playerDisconnected p.socketId e.1)
      if m.players.length = 0 then
        let pr := endMatch matchId now s1
        (pr.1, acc.2 ++ evs ++ pr.2)
      else (s1, acc.2 ++ evs)
  else acc

/-- Second phase of `handleDisconnect` (lines 337-354): iterate every
registered match and process its snapshot roster entries. -/
def handleDisconnectMatches (socketId : String) (now : Int) (s : MMState) :
    MMState × List Effect :=
  s.matchesMap.foldl
    (fun acc me => me.2.players.foldl (disconnectStep socketId me.1 now) acc)
    (s, [])

/-- `handleDisconnect` (lines 325-355): queue removal followed by the
per-match roster removal. -/
def handleDisconnect (socketId : String) (now : Int) (s : MMState) :
    MMState × List Effect :=
  handleDisconnectMatches socketId now (removeFromQueueBySocket socketId s)

/-- The mutation `startMatch` performs on the match object
(lines 175-176). -/
def startedMatch (m0 : GameMatch) (now : Int) : GameMatch :=
  { m0 with status := .active, startTime := some now }

/-- The roster update `handlePlayerReady` performs (line 207). -/
def readiedMatch (m0 : GameMatch) (userId : String) (player : Player) :
    GameMatch :=
  { m0 with players := mapSet m0.players userId { player with isReady := true } }

/-- The roster update an accepted tap performs (lines 242-243) on top of
the `lastTapTimestamp` write of `validateTap`. -/
def tappedMatch (m0 : GameMatch) (userId : String) (player : Player)
    (timestamp now : Int) : GameMatch :=
  { m0 with players := (mapSet m0.players userId
      { (validateTap player timestamp now).2 with
        validatedTaps := (validateTap player timestamp now).2.validatedTaps + 1,
        taps := (validateTap player timestamp now).2.taps + 1 }) }

/-- The disjointness invariant of the two global player indices
(spec P1): no player id is simultaneously in `playerQueue` and
`playerToMatch`. -/
def IndicesDisjoint (s : MMState) : Prop :=
  ∀ p : String,
    ¬ (mapHas s.playerQueue p = true ∧ mapHas s.playerToMatch p = true)

/-- No registered match carries the `starting` status (the source never
assigns it). -/
def NoStarting (s : MMState) : Prop :=
  ∀ mid m, mapGet s.matchesMap mid = some m → m.status ≠ MatchStatus.starting

/-! ### Concrete fixtures used by closed theorems

A two-player world reachable by two `join_queue` events (which create a
match in `waiting` state) and, for the active fixtures, the deferred
start. -/

def exPlayerA : Player := ⟨"A", "sA", "alice", 0, false, 0, 0⟩

def exPlayerB : Player := ⟨"B", "sB", "bob", 0, false, 0, 0⟩

/-- An active two-player match with no taps yet. -/
def exMatchActive : GameMatch :=
  ⟨"m1", [("A", exPlayerA), ("B", exPlayerB)], .active, some 0, none,
    MATCH_DURATION, none⟩

def exStateActive : MMState :=
  ⟨[("m1", exMatchActive)], [], [("A", "m1"), ("B", "m1")], []⟩

/-- The same world still in its 2000 ms `waiting` window. -/
def exMatchWaiting : GameMatch :=
  ⟨"m1", [("A", exPlayerA), ("B", exPlayerB)], .waiting, none, none,
    MATCH_DURATION, none⟩

def exStateWaiting : MMState :=
  ⟨[("m1", exMatchWaiting)], [], [("A", "m1"), ("B", "m1")], []⟩

/-- Active match in which player A's last accepted tap was at 50 ms. -/
def exMatchRecentTap : GameMatch :=
  ⟨"m1", [("A", { exPlayerA with lastTapTimestamp := 50 }), ("B", exPlayerB)],
    .active, some 0, none, MATCH_DURATION, none⟩

def exStateRecentTap : MMState :=
  ⟨[("m1", exMatchRecentTap)], [], [("A", "m1"), ("B", "m1")], []⟩

/-! ### Lemmas about the `Map` primitives -/

theorem mapHas_false_find? (m : List (String × α)) (k : String)
    (h : mapHas m k = false) : m.find? (fun e => e.1 = k) = none := by
  unfold mapHas at h
  cases hf : m.find? (fun e => e.1 = k) with
  | none => rfl
  | some e => rw [hf] at h; simp at h

theorem find?_key_cons_pos (e : String × α) (t : List (String × α))
    (k : String) (he : e.1 = k) :
    List.find? (fun x => x.1 = k) (e :: t) = some e := by
  apply List.find?_cons_of_pos
  simp [he]

theorem find?_key_cons_neg (e : String × α) (t : List (String × α))
    (k : String) (he : ¬ e.1 = k) :
    List.find? (fun x => x.1 = k) (e :: t) =
      List.find? (fun x => x.1 = k) t := by
  apply List.find?_cons_of_neg
  simp [he]

theorem filter_key_cons_keep (e : String × α) (t : List (String × α))
    (k : String) (he : ¬ e.1 = k) :
    List.filter (fun x => ¬ x.1 = k) (e :: t) =
      e :: List.filter (fun x => ¬ x.1 = k) t := by
  apply List.filter_cons_of_pos
  simp [he]

theorem filter_key_cons_drop (e : String × α) (t : List (String × α))
    (k : String) (he : e.1 = k) :
    List.filter (fun x => ¬ x.1 = k) (e :: t) =
      List.filter (fun x => ¬ x.1 = k) t := by
  apply List.filter_cons_of_neg
  simp [he]

theorem mapGet_mapSet_self (m : List (String × α)) (k : String) (v : α) :
    mapGet (mapSet m k v) k = some v := by
  unfold mapSet
  by_cases h : mapHas m k = true
  · rw [if_pos h]
    unfold mapHas at h
    induction m with
    | nil => simp at h
    | cons e t ih =>
      rw [List.map_cons]
      by_cases he : e.1 = k
      · rw [if_pos he]
        unfold mapGet
        rw [find?_key_cons_pos _ _ _ (by rfl : ((k, v) : String × α).1 = k)]
        rfl
      · rw [if_neg he]
        have ht : (t.find? (fun x => x.1 = k)).isSome = true := by
          rwa [find?_key_cons_neg e t k he] at h
        have hrec := ih ht
        unfold mapGet at hrec ⊢
        rw [find?_key_cons_neg e _ k he]
        exact hrec
  · rw [if_neg h]
    have hf := mapHas_false_find? m k (by simpa using h)
    unfold mapGet
    rw [List.find?_append, hf]
    simp

theorem mapGet_mapSet_ne (m : List (String × α)) (k k' : String) (v : α)
    (h : k' ≠ k) : mapGet (mapSet m k v) k' = mapGet m k' := by
  have hkk : ¬ ((k : String) = k') := fun hk => h hk.symm
  unfold mapSet
  by_cases hh : mapHas m k = true
  · rw [if_pos hh]
    clear hh
    induction m with
    | nil => rfl
    | cons e t ih =>
      rw [List.map_cons]
      by_cases he : e.1 = k
      · rw [if_pos he]
        have hne : ¬ e.1 = k' := by rw [he]; exact hkk
        unfold mapGet
        rw [find?_key_cons_neg (k, v) _ k' hkk, find?_key_cons_neg e t k' hne]
        exact ih
      · rw [if_neg he]
        by_cases he' : e.1 = k'
        · unfold mapGet
          rw [find?_key_cons_pos e _ k' he', find?_key_cons_pos e t k' he']
        · unfold mapGet
          rw [find?_key_cons_neg e _ k' he', find?_key_cons_neg e t k' he']
          exact ih
  · rw [if_neg hh]
    unfold mapGet
    rw [List.find?_append]
    cases hf : m.find? (fun e => e.1 = k') with
    | some e => simp
    | none => simp [hkk]

theorem mapHas_eq_isSome (m : List (String × α)) (k : String) :
    mapHas m k = (mapGet m k).isSome := by
  unfold mapHas mapGet
  cases m.find? (fun e => e.1 = k) <;> rfl

theorem mapHas_of_mapHas_mapSet (m : List (String × α)) (k k' : String) (v : α)
    (h : mapHas (mapSet m k v) k' = true) : k' = k ∨ mapHas m k' = true := by
  by_cases hk : k' = k
  · exact Or.inl hk
  · right
    rw [mapHas_eq_isSome] at h ⊢
    rwa [mapGet_mapSet_ne m k k' v hk] at h

theorem mapGet_mapDelete_self (m : List (String × α)) (k : String) :
    mapGet (mapDelete m k) k = none := by
  unfold mapGet mapDelete
  induction m with
  | nil => rfl
  | cons e t ih =>
    by_cases he : e.1 = k
    · rw [filter_key_cons_drop e t k he]
      exact ih
    · rw [filter_key_cons_keep e t k he, find?_key_cons_neg e _ k he]
      exact ih

theorem mapGet_mapDelete_ne (m : List (String × α)) (k k' : String)
    (h : k' ≠ k) : mapGet (mapDelete m k) k' = mapGet m k' := by
  unfold mapGet mapDelete
  induction m with
  | nil => rfl
  | cons e t ih =>
    by_cases he : e.1 = k
    · have hne : ¬ e.1 = k' := by rw [he]; exact fun hk => h hk.symm
      rw [filter_key_cons_drop e t k he, find?_key_cons_neg e t k' hne]
      exact ih
    · by_cases he' : e.1 = k'
      · rw [filter_key_cons_keep e t k he, find?_key_cons_pos e _ k' he',
          find?_key_cons_pos e t k' he']
      · rw [filter_key_cons_keep e t k he, find?_key_cons_neg e _ k' he',
          find?_key_cons_neg e t k' he']
        exact ih

theorem mapHas_mapDelete_self (m : List (String × α)) (k : String) :
    mapHas (mapDelete m k) k = false := by
  rw [mapHas_eq_isSome, mapGet_mapDelete_self]; rfl

theorem mapHas_of_mapHas_mapDelete (m : List (String × α)) (k k' : String)
    (h : mapHas (mapDelete m k) k' = true) : mapHas m k' = true := by
  by_cases hk : k' = k
  · rw [hk, mapHas_mapDelete_self] at h; exact absurd h (by simp)
  · rw [mapHas_eq_isSome] at h ⊢
    rwa [mapGet_mapDelete_ne m k k' hk] at h

/-- Fold preservation: a property stable under every step is stable under
`List.foldl`. -/
theorem foldl_preserve {α β : Type} {P : β → Prop} (f : β → α → β)
    (h : ∀ b a, P b → P (f b a)) :
    ∀ (l : List α) (b : β), P b → P (l.foldl f b)
  | [], _, hb => hb
  | a :: l, b, hb => foldl_preserve f h l (f b a) (h b a hb)

/-! ### The tap validator (claim C1) -/

/-- C1.  For every call to the tap validator with per-player state
`lastTapTimestamp`, server time `now` and a client timestamp, the tap is
accepted iff `|now − timestamp| ≤ TAP_VALIDATION_WINDOW` (100 ms) and
`now − lastTapTimestamp ≥ 1000 / MAX_TAPS_PER_SECOND` (100 ms); an
accepted tap sets `lastTapTimestamp` to `now` (never to the client
timestamp) and a rejected tap leaves the player unchanged. -/
theorem C1_validateTap (player : Player) (timestamp now : Int) :
    TAP_VALIDATION_WINDOW = 100 ∧ 1000 / MAX_TAPS_PER_SECOND = 100 ∧
    ((validateTap player timestamp now).1 = true ↔
      (|now - timestamp| ≤ 100 ∧ now - player.lastTapTimestamp ≥ 100)) ∧
    ((validateTap player timestamp now).1 = true →
      (validateTap player timestamp now).2 =
        { player with lastTapTimestamp := now }) ∧
    ((validateTap player timestamp now).1 = false →
      (validateTap player timestamp now).2 = player) := by
  have hw : TAP_VALIDATION_WINDOW = (100 : Int) := rfl
  have hr : (1000 : Int) / MAX_TAPS_PER_SECOND = 100 := rfl
  refine ⟨hw, hr, ?_, ?_, ?_⟩ <;> unfold validateTap <;> rw [hw, hr]
  · by_cases h1 : |now - timestamp| > (100 : Int)
    · rw [if_pos h1]
      constructor
      · intro h; simp at h
      · rintro ⟨ha, _⟩; exact absurd h1 (not_lt.mpr ha)
    · rw [if_neg h1]
      by_cases h2 : now - player.lastTapTimestamp < (100 : Int)
      · rw [if_pos h2]
        constructor
        · intro h; simp at h
        · rintro ⟨_, hb⟩; exact absurd h2 (not_lt.mpr hb)
      · rw [if_neg h2]
        exact ⟨fun _ => ⟨not_lt.mp h1, not_lt.mp h2⟩, fun _ => rfl⟩
  · by_cases h1 : |now - timestamp| > (100 : Int)
    · rw [if_pos h1]; intro h; simp at h
    · rw [if_neg h1]
      by_cases h2 : now - player.lastTapTimestamp < (100 : Int)
      · rw [if_pos h2]; intro h; simp at h
      · rw [if_neg h2]; intro _; rfl
  · by_cases h1 : |now - timestamp| > (100 : Int)
    · rw [if_pos h1]; intro _; rfl
    · rw [if_neg h1]
      by_cases h2 : now - player.lastTapTimestamp < (100 : Int)
      · rw [if_pos h2]; intro _; rfl
      · rw [if_neg h2]; intro h; simp at h

/-- C1 witness: `validateTap` accepts at `now = 200`, `timestamp = 150`,
`lastTapTimestamp = 0`, and updates `lastTapTimestamp` to 200. -/
theorem C1_validateTap_witness :
    (validateTap exPlayerA 150 200).1 = true ∧
    (validateTap exPlayerA 150 200).2 =
      { exPlayerA with lastTapTimestamp := 200 } := by
  have h := C1_validateTap exPlayerA 150 200
  refine ⟨?_, ?_⟩
  · exact (h.2.2.1).mpr (by decide)
  · exact h.2.2.2.1 ((h.2.2.1).mpr (by decide))

/-! ### `handleTap` branch equations (claims C5, C9) -/

theorem handleTap_eq_notFound (socketId userId matchId : String)
    (timestamp now : Int) (s : MMState)
    (h : mapGet s.matchesMap matchId = none) :
    handleTap socketId userId matchId timestamp now s =
      (s, [Effect.errorMsg socketId "Match not found"]) := by
  unfold handleTap
  rw [h]

theorem handleTap_eq_notActive (socketId userId matchId : String)
    (timestamp now : Int) (s : MMState) (m0 : GameMatch)
    (hm : mapGet s.matchesMap matchId = some m0)
    (hst : m0.status ≠ MatchStatus.active) :
    handleTap socketId userId matchId timestamp now s =
      (s, [Effect.errorMsg socketId "Match not active"]) := by
  unfold handleTap
  rw [hm]
  simp only [if_pos hst]

theorem handleTap_eq_notInMatch (socketId userId matchId : String)
    (timestamp now : Int) (s : MMState) (m0 : GameMatch)
    (hm : mapGet s.matchesMap matchId = some m0)
    (hst : m0.status = MatchStatus.active)
    (hp : mapGet m0.players userId = none) :
    handleTap socketId userId matchId timestamp now s =
      (s, [Effect.errorMsg socketId "Player not in match"]) := by
  unfold handleTap
  rw [hm]
  simp only [if_neg (show ¬ m0.status ≠ MatchStatus.active from by simp [hst])]
  rw [hp]

theorem handleTap_eq_invalid (socketId userId matchId : String)
    (timestamp now : Int) (s : MMState) (m0 : GameMatch) (player : Player)
    (hm : mapGet s.matchesMap matchId = some m0)
    (hst : m0.status = MatchStatus.active)
    (hp : mapGet m0.players userId = some player)
    (hv : (validateTap player timestamp now).1 = false) :
    handleTap socketId userId matchId timestamp now s =
      (s, [Effect.errorMsg socketId "Invalid tap detected"]) := by
  unfold handleTap
  rw [hm]
  simp only [if_neg (show ¬ m0.status ≠ MatchStatus.active from by simp [hst])]
  rw [hp]
  simp only [if_pos hv]

/-- C5.  `submitTap` fails with `Match not found` when the match id is
unknown, `Match not active` whenever the status differs from `active`
(in particular on every `finished` match), and `Player not in match` when
the player is not on the roster; every failure (including a tap the
validator rejects) leaves the state unchanged and emits only the single
error, and a `player_tapped` effect is only ever emitted when the match
exists with status `active`. -/
theorem C5_handleTap_failures (socketId userId matchId : String)
    (timestamp now : Int) (s : MMState) :
    (mapGet s.matchesMap matchId = none →
      handleTap socketId userId matchId timestamp now s =
        (s, [Effect.errorMsg socketId "Match not found"])) ∧
    (∀ m0, mapGet s.matchesMap matchId = some m0 →
      m0.status ≠ MatchStatus.active →
      handleTap socketId userId matchId timestamp now s =
        (s, [Effect.errorMsg socketId "Match not active"])) ∧
    (∀ m0, mapGet s.matchesMap matchId = some m0 →
      m0.status = MatchStatus.active →
      mapGet m0.players userId = none →
      handleTap socketId userId matchId timestamp now s =
        (s, [Effect.errorMsg socketId "Player not in match"])) ∧
    (∀ m0 player, mapGet s.matchesMap matchId = some m0 →
      m0.status = MatchStatus.active →
      mapGet m0.players userId = some player →
      (validateTap player timestamp now).1 = false →
      handleTap socketId userId matchId timestamp now s =
        (s, [Effect.errorMsg socketId "Invalid tap detected"])) ∧
    (∀ e, e ∈ (handleTap socketId userId matchId timestamp now s).2 →
      ∀ mid pid un tc, e = Effect.playerTapped mid pid un tc →
      ∃ m0, mapGet s.matchesMap matchId = some m0 ∧
        m0.status = MatchStatus.active) := by
  refine ⟨?_, ?_, ?_, ?_, ?_⟩
  · intro h; exact handleTap_eq_notFound socketId userId matchId timestamp now s h
  · intro m0 hm hst
    exact handleTap_eq_notActive socketId userId matchId timestamp now s m0 hm hst
  · intro m0 hm hst hp
    exact handleTap_eq_notInMatch socketId userId matchId timestamp now s m0 hm hst hp
  · intro m0 player hm hst hp hv
    exact handleTap_eq_invalid socketId userId matchId timestamp now s m0 player hm hst hp hv
  · intro e he mid pid un tc heq
    cases hm : mapGet s.matchesMap matchId with
    | none =>
      rw [handleTap_eq_notFound socketId userId matchId timestamp now s hm] at he
      simp at he
      rw [he] at heq
      exact absurd heq (by simp)
    | some m0 =>
      by_cases hst : m0.status = MatchStatus.active
      · exact ⟨m0, rfl, hst⟩
      · rw [handleTap_eq_notActive socketId userId matchId timestamp now s m0 hm hst] at he
        simp at he
        rw [he] at heq
        exact absurd heq (by simp)

/-- C5 witness: a tap into a `finished` match is rejected with
`Match not active` and changes nothing. -/
theorem C5_handleTap_failures_witness :
    handleTap "sA" "A" "m1" 100 100
        (⟨[("m1", { exMatchActive with status := .finished })], [], [], []⟩) =
      ((⟨[("m1", { exMatchActive with status := .finished })], [], [], []⟩ : MMState),
        [Effect.errorMsg "sA" "Match not active"]) := by
  exact (C5_handleTap_failures "sA" "A" "m1" 100 100
      ⟨[("m1", { exMatchActive with status := .finished })], [], [], []⟩).2.1
    { exMatchActive with status := .finished } (by rfl) (by decide)

/-! ### `endMatch` equations and field preservation -/

theorem endMatch_eq_none (matchId : String) (now : Int) (s : MMState)
    (h : mapGet s.matchesMap matchId = none) :
    endMatch matchId now s = (s, []) := by
  unfold endMatch
  rw [h]

theorem endMatch_eq_some (matchId : String) (now : Int) (s : MMState)
    (m0 : GameMatch) (hm : mapGet s.matchesMap matchId = some m0) :
    endMatch matchId now s =
      ({ s with matchesMap := mapSet s.matchesMap matchId (endedMatch m0 now) },
       (mapValues (endedMatch m0 now).players).map
          (fun p => Effect.matchEnded p.socketId matchId
            (matchResults (endedMatch m0 now)) (endedMatch m0 now).winner)
        ++ [Effect.schedCleanup matchId 5000]) := by
  unfold endMatch
  rw [hm]

theorem endedMatch_players (m0 : GameMatch) (now : Int) :
    (endedMatch m0 now).players = m0.players := by
  unfold endedMatch
  cases computeWinner (mapValues m0.players) <;> rfl

theorem endedMatch_status (m0 : GameMatch) (now : Int) :
    (endedMatch m0 now).status = MatchStatus.finished := by
  unfold endedMatch
  cases computeWinner (mapValues m0.players) <;> rfl

theorem endedMatch_endTime (m0 : GameMatch) (now : Int) :
    (endedMatch m0 now).endTime = some now := by
  unfold endedMatch
  cases computeWinner (mapValues m0.players) <;> rfl

theorem endMatch_indices (matchId : String) (now : Int) (s : MMState) :
    ((endMatch matchId now s).1).playerToMatch = s.playerToMatch ∧
    ((endMatch matchId now s).1).playerQueue = s.playerQueue ∧
    ((endMatch matchId now s).1).queuePlayers = s.queuePlayers := by
  cases hm : mapGet s.matchesMap matchId with
  | none => rw [endMatch_eq_none matchId now s hm]; exact ⟨rfl, rfl, rfl⟩
  | some m0 => rw [endMatch_eq_some matchId now s m0 hm]; exact ⟨rfl, rfl, rfl⟩

theorem mapGet_some_mem_values (m : List (String × α)) (k : String) (v : α)
    (h : mapGet m k = some v) : v ∈ mapValues m := by
  unfold mapGet at h
  cases hf : m.find? (fun e => e.1 = k) with
  | none => rw [hf] at h; simp at h
  | some e =>
    rw [hf] at h
    simp at h
    exact h ▸ List.mem_map.mpr ⟨e, List.mem_of_find?_eq_some hf, rfl⟩

theorem mapHas_foldl_delete_false (ps : List Player) (k : String) :
    ∀ pm : List (String × String), mapHas pm k = false →
      mapHas (ps.foldl (fun pm p => mapDelete pm p.id) pm) k = false := by
  intro pm h
  refine @foldl_preserve Player (List (String × String))
    (fun pm => mapHas pm k = false) (fun pm p => mapDelete pm p.id) ?_ ps pm h
  intro pm' p h'
  cases hh : mapHas (mapDelete pm' p.id) k with
  | false => rfl
  | true => exact absurd (mapHas_of_mapHas_mapDelete pm' p.id k hh) (by rw [h']; simp)

theorem mapHas_foldl_delete_of_mem (ps : List Player) (k : String)
    (pm : List (String × String)) (hmem : ∃ p ∈ ps, p.id = k) :
    mapHas (ps.foldl (fun pm p => mapDelete pm p.id) pm) k = false := by
  induction ps generalizing pm with
  | nil => obtain ⟨p, hp, _⟩ := hmem; exact absurd hp (by simp)
  | cons q t ih =>
    obtain ⟨p, hp, hid⟩ := hmem
    rw [List.foldl_cons]
    rcases List.mem_cons.mp hp with hq | ht
    · subst hq
      exact mapHas_foldl_delete_false t k _ (hid ▸ mapHas_mapDelete_self pm p.id)
    · exact ih _ ⟨p, ht, hid⟩

/-! ### `handleJoinQueue` branch equation (claims C7, C10) -/

theorem handleJoinQueue_eq_alreadyInMatch (socketId userId username newMatchId : String)
    (s : MMState) (h : mapHas s.playerToMatch userId = true) :
    handleJoinQueue socketId userId username newMatchId s =
      (s, [Effect.errorMsg socketId "Already in a match"]) := by
  unfold handleJoinQueue
  rw [if_pos h]

/-- C10.  After `endMatch` runs on a match, every roster player is still
indexed in `playerToMatch` (ending a match does not touch the indices), so
a `join_queue` attempt during the pre-cleanup window fails with
`Already in a match` and changes nothing; only the scheduled cleanup
removes the roster's `playerToMatch` entries. -/
theorem C10_finished_roster_blocks_join (s : MMState)
    (matchId userId sock2 username newMatchId : String) (now : Int)
    (m : GameMatch) (player : Player)
    (hm : mapGet s.matchesMap matchId = some m)
    (hp : mapGet m.players userId = some player)
    (hid : player.id = userId)
    (hpm : mapHas s.playerToMatch userId = true) :
    mapHas ((endMatch matchId now s).1).playerToMatch userId = true ∧
    handleJoinQueue sock2 userId username newMatchId ((endMatch matchId now s).1) =
      ((endMatch matchId now s).1,
        [Effect.errorMsg sock2 "Already in a match"]) ∧
    mapHas (cleanupMatch matchId ((endMatch matchId now s).1)).playerToMatch
      userId = false := by
  have hidx := (endMatch_indices matchId now s).1
  have hpm1 : mapHas ((endMatch matchId now s).1).playerToMatch userId = true := by
    rw [hidx]; exact hpm
  refine ⟨hpm1, ?_, ?_⟩
  · exact handleJoinQueue_eq_alreadyInMatch sock2 userId username newMatchId _ hpm1
  · have hget : mapGet ((endMatch matchId now s).1).matchesMap matchId =
        some (endedMatch m now) := by
      rw [endMatch_eq_some matchId now s m hm]
      exact mapGet_mapSet_self s.matchesMap matchId (endedMatch m now)
    unfold cleanupMatch
    rw [hget]
    have hmem : ∃ p ∈ mapValues (endedMatch m now).players, p.id = userId := by
      rw [endedMatch_players]
      exact ⟨player, mapGet_some_mem_values m.players userId player hp, hid⟩
    exact mapHas_foldl_delete_of_mem _ userId _ hmem

/-- C10 witness: in the active two-player fixture, `endMatch` then a
`join_queue` by player A yields `Already in a match`; cleanup then frees A. -/
theorem C10_finished_roster_blocks_join_witness :
    mapHas ((endMatch "m1" 500 exStateActive).1).playerToMatch "A" = true ∧
    handleJoinQueue "sA" "A" "alice" "m2" ((endMatch "m1" 500 exStateActive).1) =
      ((endMatch "m1" 500 exStateActive).1,
        [Effect.errorMsg "sA" "Already in a match"]) ∧
    mapHas (cleanupMatch "m1" ((endMatch "m1" 500 exStateActive).1)).playerToMatch
      "A" = false :=
  C10_finished_roster_blocks_join exStateActive "m1" "A" "sA" "alice" "m2" 500
    exMatchActive exPlayerA (by rfl) (by rfl) (by rfl) (by rfl)

/-! ### Claim C9: rejected taps carry no reason -/

/-- C9 counterexample: a clock-skew rejection (timestamp 500 ms stale,
rate check alone would pass) and a rate-limit rejection (timestamp exact,
last accepted tap 50 ms ago) are reported with byte-for-byte identical
effects — the fixed message "Invalid tap detected" — so the error carries
no reason and does not distinguish `ClockSkew` from `RateLimited`. -/
theorem C9_counterexample :
    |(100 : Int) - 600| > TAP_VALIDATION_WINDOW ∧
    (100 : Int) - exPlayerA.lastTapTimestamp ≥ 1000 / MAX_TAPS_PER_SECOND ∧
    |(100 : Int) - 100| ≤ TAP_VALIDATION_WINDOW ∧
    (100 : Int) - ({ exPlayerA with lastTapTimestamp := 50 }).lastTapTimestamp <
      1000 / MAX_TAPS_PER_SECOND ∧
    (handleTap "sA" "A" "m1" 600 100 exStateActive).2 =
      [Effect.errorMsg "sA" "Invalid tap detected"] ∧
    (handleTap "sA" "A" "m1" 100 100 exStateRecentTap).2 =
      (handleTap "sA" "A" "m1" 600 100 exStateActive).2 := by
  refine ⟨by decide, by decide, by decide, by decide, rfl, rfl⟩

/-- C9 (amended).  Every tap rejected by the validator is reported to the
submitting connection as a single `error` effect with the fixed message
"Invalid tap detected"; the payload carries no rejection reason and the
matchmaker state is unchanged. -/
theorem C9_invalid_tap_uniform_error (socketId userId matchId : String)
    (timestamp now : Int) (s : MMState) (m0 : GameMatch) (player : Player)
    (hm : mapGet s.matchesMap matchId = some m0)
    (hst : m0.status = MatchStatus.active)
    (hp : mapGet m0.players userId = some player)
    (hv : (validateTap player timestamp now).1 = false) :
    handleTap socketId userId matchId timestamp now s =
      (s, [Effect.errorMsg socketId "Invalid tap detected"]) :=
  handleTap_eq_invalid socketId userId matchId timestamp now s m0 player
    hm hst hp hv

/-- C9 witness: the rate-limited fixture rejection. -/
theorem C9_invalid_tap_uniform_error_witness :
    handleTap "sA" "A" "m1" 100 100 exStateRecentTap =
      (exStateRecentTap, [Effect.errorMsg "sA" "Invalid tap detected"]) :=
  C9_invalid_tap_uniform_error "sA" "A" "m1" 100 100 exStateRecentTap
    exMatchRecentTap { exPlayerA with lastTapTimestamp := 50 }
    (by rfl) (by rfl) (by rfl) (by decide)

/-! ### The winner fold (claims C2, C6) -/

theorem computeWinner_foldl_from (ps : List Player) (w : Player) :
    ps.foldl
      (fun acc p =>
        if (p.validatedTaps : Int) > acc.1 then ((p.validatedTaps : Int), some p)
        else acc)
      (((w.validatedTaps : Nat) : Int), some w) =
    (((firstMax w ps).validatedTaps : Int), some (firstMax w ps)) := by
  induction ps generalizing w with
  | nil => rfl
  | cons p t ih =>
    rw [List.foldl_cons, firstMax]
    by_cases h : p.validatedTaps > w.validatedTaps
    · have hc : ((p.validatedTaps : Int) >
          (((w.validatedTaps : Nat) : Int), some w).1) := by
        show (w.validatedTaps : Int) < (p.validatedTaps : Int)
        exact_mod_cast h
      rw [if_pos hc, if_pos h]
      exact ih p
    · have hc : ¬ ((p.validatedTaps : Int) >
          (((w.validatedTaps : Nat) : Int), some w).1) := by
        show ¬ (w.validatedTaps : Int) < (p.validatedTaps : Int)
        exact_mod_cast h
      rw [if_neg hc, if_neg h]
      exact ih w

theorem computeWinner_cons (p : Player) (ps : List Player) :
    computeWinner (p :: ps) = some (firstMax p ps) := by
  unfold computeWinner
  rw [List.foldl_cons]
  rw [if_pos (show ((p.validatedTaps : Nat) : Int) > -1 from
    lt_of_lt_of_le (by norm_num) (Int.ofNat_nonneg p.validatedTaps))]
  rw [computeWinner_foldl_from ps p]

theorem firstMax_of_all_le (ps : List Player) (w : Player)
    (h : ∀ p ∈ ps, p.validatedTaps ≤ w.validatedTaps) : firstMax w ps = w := by
  induction ps generalizing w with
  | nil => rfl
  | cons p t ih =>
    rw [firstMax, if_neg (not_lt.mpr (h p (List.mem_cons_self p t)))]
    exact ih w (fun q hq => h q (List.mem_cons_of_mem p hq))

theorem endedMatch_winner_of_some (m : GameMatch) (now : Int) (w : Player)
    (h : computeWinner (mapValues m.players) = some w) :
    (endedMatch m now).winner = some w.id := by
  unfold endedMatch
  rw [h]

theorem endedMatch_winner_of_none (m : GameMatch) (now : Int)
    (h : computeWinner (mapValues m.players) = none) :
    (endedMatch m now).winner = m.winner := by
  unfold endedMatch
  rw [h]

/-- C2 counterexample: in the active two-player fixture every roster
player has zero `validatedTaps`, yet `endMatch` sets `winnerId` to
`"A"` (the first roster player), not to null — the winner fold starts at
`maxTaps = -1`, so `0 > -1` already crowns the first player. -/
theorem C2_counterexample :
    (∀ p ∈ mapValues exMatchActive.players, p.validatedTaps = 0) ∧
    (mapGet ((endMatch "m1" 500 exStateActive).1).matchesMap "m1").map
        GameMatch.winner = some (some "A") ∧
    (some "A" : Option String) ≠ (none : Option String) := by
  refine ⟨by decide, by rfl, by decide⟩

/-- C2 (amended).  `endMatch` leaves `winnerId` null only when the roster
is empty (all players disconnected); when the roster is non-empty and
every player has zero `validatedTaps`, the tie-break applies and the
first-inserted roster player becomes the winner, so `winnerId` is
non-null. -/
theorem C2_amended (s : MMState) (matchId : String) (now : Int)
    (m : GameMatch) (hm : mapGet s.matchesMap matchId = some m) :
    (m.players = [] →
      ∃ m2, mapGet ((endMatch matchId now s).1).matchesMap matchId = some m2 ∧
        m2.winner = m.winner) ∧
    (∀ p ps, mapValues m.players = p :: ps →
      (∀ q ∈ mapValues m.players, q.validatedTaps = 0) →
      ∃ m2, mapGet ((endMatch matchId now s).1).matchesMap matchId = some m2 ∧
        m2.winner = some p.id) := by
  have hget : mapGet ((endMatch matchId now s).1).matchesMap matchId =
      some (endedMatch m now) := by
    rw [endMatch_eq_some matchId now s m hm]
    exact mapGet_mapSet_self s.matchesMap matchId (endedMatch m now)
  constructor
  · intro hnil
    refine ⟨endedMatch m now, hget, ?_⟩
    apply endedMatch_winner_of_none
    rw [show mapValues m.players = [] from by rw [hnil]; rfl]
    rfl
  · intro p ps hcons hzero
    refine ⟨endedMatch m now, hget, ?_⟩
    have hw : computeWinner (mapValues m.players) = some p := by
      rw [hcons, computeWinner_cons]
      have : firstMax p ps = p := by
        apply firstMax_of_all_le
        intro q hq
        rw [hzero q (by rw [hcons]; exact List.mem_cons_of_mem p hq),
          hzero p (by rw [hcons]; exact List.mem_cons_self p ps)]
      rw [this]
    exact endedMatch_winner_of_some m now p hw

/-- C2 amended witness: the all-zero two-player fixture ends with the
first-inserted player A as winner. -/
theorem C2_amended_witness :
    ∃ m2, mapGet ((endMatch "m1" 500 exStateActive).1).matchesMap "m1" =
        some m2 ∧ m2.winner = some "A" :=
  (C2_amended exStateActive "m1" 500 exMatchActive (by rfl)).2
    exPlayerA [exPlayerB] (by rfl) (by decide)

/-! ### Claim C4: `endMatch` / cleanup repetition -/

theorem cleanupMatch_eq_none (matchId : String) (s : MMState)
    (h : mapGet s.matchesMap matchId = none) :
    cleanupMatch matchId s = s := by
  unfold cleanupMatch
  rw [h]

theorem cleanupMatch_eq_some (matchId : String) (s : MMState) (m : GameMatch)
    (hm : mapGet s.matchesMap matchId = some m) :
    cleanupMatch matchId s =
      { s with
        matchesMap := mapDelete s.matchesMap matchId,
        playerToMatch :=
          (mapValues m.players).foldl (fun pm p => mapDelete pm p.id)
            s.playerToMatch } := by
  unfold cleanupMatch
  rw [hm]

/-- C4 counterexample: a second `endMatch` inside the cleanup window is
not a no-op — it overwrites `endTime` (100 → 200) and re-emits
`match_ended` to the roster. -/
theorem C4_counterexample :
    (mapGet ((endMatch "m1" 100 exStateActive).1).matchesMap "m1").map
        GameMatch.endTime = some (some 100) ∧
    (mapGet ((endMatch "m1" 200
        ((endMatch "m1" 100 exStateActive).1)).1).matchesMap "m1").map
        GameMatch.endTime = some (some 200) ∧
    (endMatch "m1" 200 ((endMatch "m1" 100 exStateActive).1)).2 ≠ [] := by
  refine ⟨rfl, rfl, by decide⟩

/-- C4 (amended).  A second `endMatch` on a still-registered match leaves
`status`, `winnerId` and the roster at their first values but overwrites
`endAt` with the second call's time and re-broadcasts `match_ended`; only
once the scheduled cleanup has deleted the match is `endMatch` a strict
no-op; cleanup itself is idempotent. -/
theorem C4_amended (s : MMState) (matchId : String) (now₁ now₂ : Int)
    (m : GameMatch) (hm : mapGet s.matchesMap matchId = some m) :
    (∃ m1 m2,
      mapGet ((endMatch matchId now₁ s).1).matchesMap matchId = some m1 ∧
      mapGet ((endMatch matchId now₂
          ((endMatch matchId now₁ s).1)).1).matchesMap matchId = some m2 ∧
      m2.status = m1.status ∧ m2.winner = m1.winner ∧
      m2.players = m1.players ∧
      m1.endTime = some now₁ ∧ m2.endTime = some now₂) ∧
    cleanupMatch matchId (cleanupMatch matchId s) = cleanupMatch matchId s ∧
    endMatch matchId now₂ (cleanupMatch matchId ((endMatch matchId now₁ s).1)) =
      (cleanupMatch matchId ((endMatch matchId now₁ s).1), []) := by
  have hget1 : mapGet ((endMatch matchId now₁ s).1).matchesMap matchId =
      some (endedMatch m now₁) := by
    rw [endMatch_eq_some matchId now₁ s m hm]
    exact mapGet_mapSet_self s.matchesMap matchId (endedMatch m now₁)
  have hget2 : mapGet ((endMatch matchId now₂
      ((endMatch matchId now₁ s).1)).1).matchesMap matchId =
      some (endedMatch (endedMatch m now₁) now₂) := by
    rw [endMatch_eq_some matchId now₂ _ (endedMatch m now₁) hget1]
    exact mapGet_mapSet_self _ matchId _
  refine ⟨⟨endedMatch m now₁, endedMatch (endedMatch m now₁) now₂,
    hget1, hget2, ?_, ?_, ?_, ?_, ?_⟩, ?_, ?_⟩
  · rw [endedMatch_status, endedMatch_status]
  · cases hw : computeWinner (mapValues m.players) with
    | some w =>
      rw [endedMatch_winner_of_some _ _ _
        (by rw [endedMatch_players]; exact hw)]
      rw [endedMatch_winner_of_some _ _ _ hw]
    | none =>
      rw [endedMatch_winner_of_none _ _
        (by rw [endedMatch_players]; exact hw)]
  · rw [endedMatch_players]
  · exact endedMatch_endTime m now₁
  · exact endedMatch_endTime (endedMatch m now₁) now₂
  · rw [cleanupMatch_eq_some matchId s m hm]
    apply cleanupMatch_eq_none
    exact mapGet_mapDelete_self s.matchesMap matchId
  · have hclean := cleanupMatch_eq_some matchId
      ((endMatch matchId now₁ s).1) (endedMatch m now₁) hget1
    apply endMatch_eq_none
    rw [hclean]
    exact mapGet_mapDelete_self _ matchId

/-- C4 amended witness: the two-player fixture, ended at 100 then 200. -/
theorem C4_amended_witness :
    (∃ m1 m2,
      mapGet ((endMatch "m1" 100 exStateActive).1).matchesMap "m1" = some m1 ∧
      mapGet ((endMatch "m1" 200
          ((endMatch "m1" 100 exStateActive).1)).1).matchesMap "m1" = some m2 ∧
      m2.status = m1.status ∧ m2.winner = m1.winner ∧
      m2.players = m1.players ∧
      m1.endTime = some 100 ∧ m2.endTime = some 200) ∧
    cleanupMatch "m1" (cleanupMatch "m1" exStateActive) =
      cleanupMatch "m1" exStateActive ∧
    endMatch "m1" 200 (cleanupMatch "m1" ((endMatch "m1" 100 exStateActive).1)) =
      (cleanupMatch "m1" ((endMatch "m1" 100 exStateActive).1), []) :=
  C4_amended exStateActive "m1" 100 200 exMatchActive (by rfl)

/-! ### Claim C3: the deferred start is not guarded -/

/-- C3 evaluated on the failing input: in the waiting fixture both players
mark ready at t = 900/1000, which starts the match early (status
`active`, `startAt = 1000`, `match_started` broadcast, end timer
scheduled); when the deferred `startMatch` fires at t = 2000 it is *not*
a guarded no-op — it broadcasts `match_started` a second time, overwrites
`startAt` to 2000 and schedules a second end timer, refuting the claimed
idempotence. -/
theorem C3_code_evaluation :
    (mapGet ((handlePlayerReady "sB" "B" "m1" 1000
        ((handlePlayerReady "sA" "A" "m1" 900 exStateWaiting).1)).1).matchesMap
        "m1").map (fun mm => (mm.status, mm.startTime)) =
      some (MatchStatus.active, some 1000) ∧
    Effect.matchStarted "sA" "m1" MATCH_DURATION 1000 ∈
      (handlePlayerReady "sB" "B" "m1" 1000
        ((handlePlayerReady "sA" "A" "m1" 900 exStateWaiting).1)).2 ∧
    (startMatch "m1" 2000 ((handlePlayerReady "sB" "B" "m1" 1000
        ((handlePlayerReady "sA" "A" "m1" 900 exStateWaiting).1)).1)).2 =
      [Effect.matchStarted "sA" "m1" MATCH_DURATION 2000,
       Effect.matchStarted "sB" "m1" MATCH_DURATION 2000,
       Effect.schedEnd "m1" MATCH_DURATION] ∧
    (mapGet ((startMatch "m1" 2000 ((handlePlayerReady "sB" "B" "m1" 1000
        ((handlePlayerReady "sA" "A" "m1" 900 exStateWaiting).1)).1)).1).matchesMap
        "m1").map GameMatch.startTime = some (some 2000) := by
  refine ⟨rfl, by decide, rfl, rfl⟩

/-! ### Claim C8: the status chain -/

/-- C8 counterexample: in the waiting fixture, player A's disconnect
leaves the match `waiting`; player B's disconnect then empties the roster
and `handleDisconnect` runs `endMatch` immediately, moving the match
directly from `waiting` to `finished` — the `active` (and `starting`)
steps are skipped, refuting the claimed chain. -/
theorem C8_counterexample :
    (mapGet exStateWaiting.matchesMap "m1").map GameMatch.status =
      some MatchStatus.waiting ∧
    (mapGet ((handleDisconnect "sA" 200 exStateWaiting).1).matchesMap
        "m1").map GameMatch.status = some MatchStatus.waiting ∧
    (mapGet ((handleDisconnect "sB" 300
        ((handleDisconnect "sA" 200 exStateWaiting).1)).1).matchesMap
        "m1").map GameMatch.status = some MatchStatus.finished := by
  refine ⟨rfl, rfl, rfl⟩

/-! ### Claim C7: disjointness of `playerQueue` and `playerToMatch` -/

theorem mapHas_foldl_delete_sub (ps : List Player) (q : String) :
    ∀ pm : List (String × String),
      mapHas (ps.foldl (fun pm p => mapDelete pm p.id) pm) q = true →
      mapHas pm q = true := by
  induction ps with
  | nil => intro pm h; exact h
  | cons p t ih =>
    intro pm h
    rw [List.foldl_cons] at h
    exact mapHas_of_mapHas_mapDelete pm p.id q (ih _ h)

theorem disjoint_endMatch (matchId : String) (now : Int) (s : MMState)
    (hd : IndicesDisjoint s) : IndicesDisjoint (endMatch matchId now s).1 := by
  intro p hp
  obtain ⟨h1, h2⟩ := hp
  rw [(endMatch_indices matchId now s).2.1] at h1
  rw [(endMatch_indices matchId now s).1] at h2
  exact hd p ⟨h1, h2⟩

theorem disjoint_cleanupMatch (matchId : String) (s : MMState)
    (hd : IndicesDisjoint s) : IndicesDisjoint (cleanupMatch matchId s) := by
  cases hm : mapGet s.matchesMap matchId with
  | none => rw [cleanupMatch_eq_none matchId s hm]; exact hd
  | some m =>
    rw [cleanupMatch_eq_some matchId s m hm]
    intro p hp
    obtain ⟨h1, h2⟩ := hp
    exact hd p ⟨h1, mapHas_foldl_delete_sub (mapValues m.players) p
      s.playerToMatch h2⟩

theorem disjoint_createMatch (newMatchId : String) (s : MMState)
    (hd : IndicesDisjoint s) : IndicesDisjoint (createMatch newMatchId s).1 := by
  unfold createMatch
  by_cases hlen : s.queuePlayers.length < MATCH_SIZE
  · rw [if_pos hlen]; exact hd
  · rw [if_neg hlen]
    have hfold : IndicesDisjoint
        (((mapValues s.queuePlayers).take MATCH_SIZE).foldl
          (fun (acc : List (String × Player) × MMState) p =>
            (mapSet acc.1 p.id p,
             { acc.2 with
               queuePlayers := mapDelete acc.2.queuePlayers p.id,
               playerQueue := mapDelete acc.2.playerQueue p.id,
               playerToMatch := mapSet acc.2.playerToMatch p.id newMatchId }))
          (([] : List (String × Player)), s)).2 := by
      refine @foldl_preserve Player (List (String × Player) × MMState)
        (fun acc => IndicesDisjoint acc.2) _ ?_ _ _ hd
      intro acc p hp q hq
      obtain ⟨hq1, hq2⟩ := hq
      rcases mapHas_of_mapHas_mapSet acc.2.playerToMatch p.id q newMatchId hq2
        with hqp | hq2'
      · rw [hqp, mapHas_mapDelete_self] at hq1
        simp at hq1
      · exact hp q ⟨mapHas_of_mapHas_mapDelete acc.2.playerQueue p.id q hq1, hq2'⟩
    exact hfold

theorem disjoint_handleJoinQueue (socketId userId username newMatchId : String)
    (s : MMState) (hd : IndicesDisjoint s) :
    IndicesDisjoint (handleJoinQueue socketId userId username newMatchId s).1 := by
  unfold handleJoinQueue
  by_cases h1 : mapHas s.playerToMatch userId = true
  · rw [if_pos h1]; exact hd
  · rw [if_neg h1]
    by_cases h2 : mapHas s.playerQueue userId = true
    · rw [if_pos h2]; exact hd
    · rw [if_neg h2]
      have hs1 : IndicesDisjoint
          { s with
            queuePlayers := mapSet s.queuePlayers userId
              ⟨userId, socketId, username, 0, false, 0, 0⟩,
            playerQueue := mapSet s.playerQueue userId "main" } := by
        intro p hp
        obtain ⟨hp1, hp2⟩ := hp
        rcases mapHas_of_mapHas_mapSet s.playerQueue userId p "main" hp1
          with hpu | hp1'
        · rw [hpu] at hp2
          exact h1 hp2
        · exact hd p ⟨hp1', hp2⟩
      by_cases h3 : (mapSet s.queuePlayers userId
          ⟨userId, socketId, username, 0, false, 0, 0⟩).length ≥ MATCH_SIZE
      · rw [if_pos h3]
        exact disjoint_createMatch newMatchId _ hs1
      · rw [if_neg h3]
        exact hs1

theorem disjoint_handleLeaveQueue (socketId userId : String) (s : MMState)
    (hd : IndicesDisjoint s) :
    IndicesDisjoint (handleLeaveQueue socketId userId s).1 := by
  unfold handleLeaveQueue
  by_cases h1 : mapHas s.playerQueue userId = false
  · rw [if_pos h1]; exact hd
  · rw [if_neg h1]
    intro p hp
    obtain ⟨hp1, hp2⟩ := hp
    exact hd p ⟨mapHas_of_mapHas_mapDelete s.playerQueue userId p hp1, hp2⟩

theorem disjoint_removeFromQueueBySocket (socketId : String) (s : MMState)
    (hd : IndicesDisjoint s) :
    IndicesDisjoint (removeFromQueueBySocket socketId s) := by
  unfold removeFromQueueBySocket
  refine @foldl_preserve (String × Player) MMState IndicesDisjoint _ ?_ _ _ hd
  intro st e hst
  by_cases hc : e.2.socketId = socketId
  · rw [if_pos hc]
    intro p hp
    obtain ⟨hp1, hp2⟩ := hp
    exact hst p ⟨mapHas_of_mapHas_mapDelete st.playerQueue e.1 p hp1, hp2⟩
  · rw [if_neg hc]
    exact hst

theorem disjoint_disconnectStep (socketId matchId : String) (now : Int)
    (acc : MMState × List Effect) (e : String × Player)
    (hd : IndicesDisjoint acc.1) :
    IndicesDisjoint (disconnectStep socketId matchId now acc e).1 := by
  unfold disconnectStep
  by_cases hc : e.2.socketId = socketId
  · rw [if_pos hc]
    cases hm : mapGet acc.1.matchesMap matchId with
    | none => exact hd
    | some m0 =>
      dsimp only
      have hs1 : IndicesDisjoint
          { acc.1 with
            matchesMap := mapSet acc.1.matchesMap matchId
              { m0 with players := mapDelete m0.players e.1 },
            playerToMatch := mapDelete acc.1.playerToMatch e.1 } := by
        intro p hp
        obtain ⟨hp1, hp2⟩ := hp
        exact hd p ⟨hp1, mapHas_of_mapHas_mapDelete acc.1.playerToMatch e.1 p hp2⟩
      by_cases hz : (mapDelete m0.players e.1).length = 0
      · rw [if_pos hz]
        exact disjoint_endMatch matchId now _ hs1
      · rw [if_neg hz]
        exact hs1
  · rw [if_neg hc]
    exact hd

theorem disjoint_handleDisconnectMatches (socketId : String) (now : Int)
    (s : MMState) (hd : IndicesDisjoint s) :
    IndicesDisjoint (handleDisconnectMatches socketId now s).1 := by
  unfold handleDisconnectMatches
  refine @foldl_preserve (String × GameMatch) (MMState × List Effect)
    (fun acc => IndicesDisjoint acc.1) _ ?_ _ _ hd
  intro acc me hacc
  exact @foldl_preserve (String × Player) (MMState × List Effect)
    (fun acc => IndicesDisjoint acc.1) _
    (fun acc e h => disjoint_disconnectStep socketId me.1 now acc e h)
    me.2.players acc hacc

theorem disjoint_handleDisconnect (socketId : String) (now : Int) (s : MMState)
    (hd : IndicesDisjoint s) :
    IndicesDisjoint (handleDisconnect socketId now s).1 :=
  disjoint_handleDisconnectMatches socketId now _
    (disjoint_removeFromQueueBySocket socketId s hd)

/-- C7.  For every player id, the two indices `playerQueue` ("in the
waiting queue") and `playerToMatch` ("in a live match") are mutually
exclusive, and every public operation — `joinQueue` (including the
`createMatch` it may trigger), `leaveQueue`, `createMatch`, `endMatch`
and its scheduled cleanup, and `onDisconnect` — preserves this
disjointness. -/
theorem C7_indices_disjoint (s : MMState) (hd : IndicesDisjoint s)
    (socketId userId username newMatchId matchId : String) (now : Int) :
    IndicesDisjoint (handleJoinQueue socketId userId username newMatchId s).1 ∧
    IndicesDisjoint (handleLeaveQueue socketId userId s).1 ∧
    IndicesDisjoint (createMatch newMatchId s).1 ∧
    IndicesDisjoint (endMatch matchId now s).1 ∧
    IndicesDisjoint (cleanupMatch matchId s) ∧
    IndicesDisjoint (handleDisconnect socketId now s).1 :=
  ⟨disjoint_handleJoinQueue socketId userId username newMatchId s hd,
   disjoint_handleLeaveQueue socketId userId s hd,
   disjoint_createMatch newMatchId s hd,
   disjoint_endMatch matchId now s hd,
   disjoint_cleanupMatch matchId s hd,
   disjoint_handleDisconnect socketId now s hd⟩

/-- C7 witness at the active fixture (empty queue, both players in the
match), exercised on a join, leave, create, end, cleanup and disconnect. -/
theorem C7_indices_disjoint_witness :
    IndicesDisjoint (handleJoinQueue "sA" "A" "alice" "m2" exStateActive).1 ∧
    IndicesDisjoint (handleLeaveQueue "sA" "A" exStateActive).1 ∧
    IndicesDisjoint (createMatch "m2" exStateActive).1 ∧
    IndicesDisjoint (endMatch "m1" 500 exStateActive).1 ∧
    IndicesDisjoint (cleanupMatch "m1" exStateActive) ∧
    IndicesDisjoint (handleDisconnect "sA" 500 exStateActive).1 :=
  C7_indices_disjoint exStateActive
    (fun p hp => by
      have h1 := hp.1
      simp [exStateActive, mapHas] at h1)
    "sA" "A" "alice" "m2" "m1" 500

/-! ### Claim C8 (amended): which statuses operations assign -/

theorem mapGet_mapSet_cases (m : List (String × α)) (k k' : String) (v v' : α)
    (h : mapGet (mapSet m k v) k' = some v') :
    (k' = k ∧ v' = v) ∨ mapGet m k' = some v' := by
  by_cases hk : k' = k
  · subst hk
    rw [mapGet_mapSet_self] at h
    exact Or.inl ⟨rfl, (Option.some_inj.mp h).symm⟩
  · rw [mapGet_mapSet_ne m k k' v hk] at h
    exact Or.inr h

theorem mapGet_of_mapGet_mapDelete (m : List (String × α)) (k k' : String)
    (v' : α) (h : mapGet (mapDelete m k) k' = some v') :
    mapGet m k' = some v' := by
  by_cases hk : k' = k
  · subst hk
    rw [mapGet_mapDelete_self] at h
    exact absurd h (by simp)
  · rwa [mapGet_mapDelete_ne m k k' hk] at h

theorem startMatch_state (matchId : String) (now : Int) (s : MMState)
    (m0 : GameMatch) (hm : mapGet s.matchesMap matchId = some m0) :
    (startMatch matchId now s).1 =
      { s with matchesMap := mapSet s.matchesMap matchId (startedMatch m0 now) } := by
  unfold startMatch startedMatch
  rw [hm]

theorem startMatch_sets_active (matchId : String) (now : Int) (s : MMState)
    (m0 : GameMatch) (hm : mapGet s.matchesMap matchId = some m0) :
    ∃ m', mapGet ((startMatch matchId now s).1).matchesMap matchId = some m' ∧
      m'.status = MatchStatus.active ∧ m'.startTime = some now := by
  rw [startMatch_state matchId now s m0 hm]
  exact ⟨startedMatch m0 now, mapGet_mapSet_self _ matchId _, rfl, rfl⟩

theorem endMatch_sets_finished (matchId : String) (now : Int) (s : MMState)
    (m0 : GameMatch) (hm : mapGet s.matchesMap matchId = some m0) :
    ∃ m', mapGet ((endMatch matchId now s).1).matchesMap matchId = some m' ∧
      m'.status = MatchStatus.finished ∧ m'.endTime = some now := by
  rw [endMatch_eq_some matchId now s m0 hm]
  exact ⟨endedMatch m0 now, mapGet_mapSet_self _ matchId _,
    endedMatch_status m0 now, endedMatch_endTime m0 now⟩

theorem createMatch_foldState_matchesMap (newMatchId : String) (s : MMState)
    (chosen : List Player) :
    ((chosen.foldl
      (fun (acc : List (String × Player) × MMState) p =>
        (mapSet acc.1 p.id p,
         { acc.2 with
           queuePlayers := mapDelete acc.2.queuePlayers p.id,
           playerQueue := mapDelete acc.2.playerQueue p.id,
           playerToMatch := mapSet acc.2.playerToMatch p.id newMatchId }))
      (([] : List (String × Player)), s)).2).matchesMap = s.matchesMap := by
  refine @foldl_preserve Player (List (String × Player) × MMState)
    (fun acc => acc.2.matchesMap = s.matchesMap) _ ?_ chosen _ rfl
  intro acc p h
  exact h

theorem createMatch_creates_waiting (newMatchId : String) (s : MMState)
    (hlen : s.queuePlayers.length ≥ MATCH_SIZE) :
    ∃ mc, mapGet ((createMatch newMatchId s).1).matchesMap newMatchId =
        some mc ∧ mc.status = MatchStatus.waiting := by
  unfold createMatch
  rw [if_neg (not_lt.mpr hlen)]
  exact ⟨_, mapGet_mapSet_self _ newMatchId _, rfl⟩

theorem ns_endMatch (matchId : String) (now : Int) (s : MMState)
    (hs : NoStarting s) : NoStarting (endMatch matchId now s).1 := by
  cases hm : mapGet s.matchesMap matchId with
  | none => rw [endMatch_eq_none matchId now s hm]; exact hs
  | some m0 =>
    rw [endMatch_eq_some matchId now s m0 hm]
    intro mid m h
    rcases mapGet_mapSet_cases s.matchesMap matchId mid _ m h with ⟨_, hv⟩ | hold
    · rw [hv, endedMatch_status]; simp
    · exact hs mid m hold

theorem ns_startMatch (matchId : String) (now : Int) (s : MMState)
    (hs : NoStarting s) : NoStarting (startMatch matchId now s).1 := by
  cases hm : mapGet s.matchesMap matchId with
  | none => unfold startMatch; rw [hm]; exact hs
  | some m0 =>
    rw [startMatch_state matchId now s m0 hm]
    intro mid m h
    rcases mapGet_mapSet_cases s.matchesMap matchId mid _ m h with ⟨_, hv⟩ | hold
    · rw [hv]; simp [startedMatch]
    · exact hs mid m hold

theorem ns_cleanupMatch (matchId : String) (s : MMState)
    (hs : NoStarting s) : NoStarting (cleanupMatch matchId s) := by
  cases hm : mapGet s.matchesMap matchId with
  | none => rw [cleanupMatch_eq_none matchId s hm]; exact hs
  | some m0 =>
    rw [cleanupMatch_eq_some matchId s m0 hm]
    intro mid m h
    exact hs mid m (mapGet_of_mapGet_mapDelete s.matchesMap matchId mid m h)

theorem ns_createMatch (newMatchId : String) (s : MMState)
    (hs : NoStarting s) : NoStarting (createMatch newMatchId s).1 := by
  unfold createMatch
  by_cases hlen : s.queuePlayers.length < MATCH_SIZE
  · rw [if_pos hlen]; exact hs
  · rw [if_neg hlen]
    intro mid m h
    rcases mapGet_mapSet_cases _ newMatchId mid _ m h with ⟨_, hv⟩ | hold
    · rw [hv]; simp
    · rw [createMatch_foldState_matchesMap newMatchId s _] at hold
      exact hs mid m hold

theorem ns_handleJoinQueue (socketId userId username newMatchId : String)
    (s : MMState) (hs : NoStarting s) :
    NoStarting (handleJoinQueue socketId userId username newMatchId s).1 := by
  unfold handleJoinQueue
  by_cases h1 : mapHas s.playerToMatch userId = true
  · rw [if_pos h1]; exact hs
  · rw [if_neg h1]
    by_cases h2 : mapHas s.playerQueue userId = true
    · rw [if_pos h2]; exact hs
    · rw [if_neg h2]
      by_cases h3 : (mapSet s.queuePlayers userId
          ⟨userId, socketId, username, 0, false, 0, 0⟩).length ≥ MATCH_SIZE
      · rw [if_pos h3]
        exact ns_createMatch newMatchId _ hs
      · rw [if_neg h3]
        exact hs

theorem ns_handleLeaveQueue (socketId userId : String) (s : MMState)
    (hs : NoStarting s) :
    NoStarting (handleLeaveQueue socketId userId s).1 := by
  unfold handleLeaveQueue
  by_cases h1 : mapHas s.playerQueue userId = false
  · rw [if_pos h1]; exact hs
  · rw [if_neg h1]; exact hs

theorem handlePlayerReady_state (socketId userId matchId : String) (now : Int)
    (s : MMState) (m0 : GameMatch) (player : Player)
    (hm : mapGet s.matchesMap matchId = some m0)
    (hp : mapGet m0.players userId = some player) :
    (handlePlayerReady socketId userId matchId now s).1 =
      (if (mapValues (readiedMatch m0 userId player).players).all
            (·.isReady) = true ∧
          (readiedMatch m0 userId player).status = MatchStatus.waiting
       then (startMatch matchId now
          { s with matchesMap := mapSet s.matchesMap matchId (readiedMatch m0 userId player) }).1
       else
         { s with matchesMap := mapSet s.matchesMap matchId (readiedMatch m0 userId player) }) := by
  unfold handlePlayerReady readiedMatch
  rw [hm]
  dsimp only
  rw [hp]
  dsimp only
  by_cases hc : (mapValues (mapSet m0.players userId
      { player with isReady := true })).all (·.isReady) = true ∧
      m0.status = MatchStatus.waiting
  · rw [if_pos hc, if_pos hc]
  · rw [if_neg hc, if_neg hc]

theorem ns_handlePlayerReady (socketId userId matchId : String) (now : Int)
    (s : MMState) (hs : NoStarting s) :
    NoStarting (handlePlayerReady socketId userId matchId now s).1 := by
  cases hm : mapGet s.matchesMap matchId with
  | none => unfold handlePlayerReady; rw [hm]; exact hs
  | some m0 =>
    cases hp : mapGet m0.players userId with
    | none => unfold handlePlayerReady; rw [hm]; dsimp only; rw [hp]; exact hs
    | some player =>
      rw [handlePlayerReady_state socketId userId matchId now s m0 player hm hp]
      have hs1 : NoStarting
          { s with matchesMap := mapSet s.matchesMap matchId (readiedMatch m0 userId player) } := by
        intro mid m h
        rcases mapGet_mapSet_cases s.matchesMap matchId mid _ m h
          with ⟨_, hv⟩ | hold
        · rw [hv]
          exact hs matchId m0 hm
        · exact hs mid m hold
      by_cases hc : (mapValues (readiedMatch m0 userId player).players).all
          (·.isReady) = true ∧
          (readiedMatch m0 userId player).status = MatchStatus.waiting
      · rw [if_pos hc]
        exact ns_startMatch matchId now _ hs1
      · rw [if_neg hc]
        exact hs1

theorem handleTap_state_accept (socketId userId matchId : String)
    (timestamp now : Int) (s : MMState) (m0 : GameMatch) (player : Player)
    (hm : mapGet s.matchesMap matchId = some m0)
    (hst : m0.status = MatchStatus.active)
    (hp : mapGet m0.players userId = some player)
    (hv : (validateTap player timestamp now).1 = true) :
    (handleTap socketId userId matchId timestamp now s).1 =
      { s with matchesMap := mapSet s.matchesMap matchId (tappedMatch m0 userId player timestamp now) } := by
  unfold handleTap tappedMatch
  rw [hm]
  simp only [if_neg (show ¬ m0.status ≠ MatchStatus.active from by simp [hst])]
  rw [hp]
  dsimp only
  rw [if_neg (show ¬ ((validateTap player timestamp now).1 = false) from by
    rw [hv]; simp)]

theorem ns_handleTap (socketId userId matchId : String) (timestamp now : Int)
    (s : MMState) (hs : NoStarting s) :
    NoStarting (handleTap socketId userId matchId timestamp now s).1 := by
  cases hm : mapGet s.matchesMap matchId with
  | none =>
    rw [handleTap_eq_notFound socketId userId matchId timestamp now s hm]
    exact hs
  | some m0 =>
    by_cases hst : m0.status = MatchStatus.active
    · cases hp : mapGet m0.players userId with
      | none =>
        rw [handleTap_eq_notInMatch socketId userId matchId timestamp now s
          m0 hm hst hp]
        exact hs
      | some player =>
        cases hv : (validateTap player timestamp now).1 with
        | false =>
          rw [handleTap_eq_invalid socketId userId matchId timestamp now s
            m0 player hm hst hp hv]
          exact hs
        | true =>
          rw [handleTap_state_accept socketId userId matchId timestamp now s
            m0 player hm hst hp hv]
          intro mid m h
          rcases mapGet_mapSet_cases s.matchesMap matchId mid _ m h
            with ⟨_, hv'⟩ | hold
          · rw [hv']
            exact hs matchId m0 hm
          · exact hs mid m hold
    · rw [handleTap_eq_notActive socketId userId matchId timestamp now s m0
        hm hst]
      exact hs

theorem ns_removeFromQueueBySocket (socketId : String) (s : MMState)
    (hs : NoStarting s) : NoStarting (removeFromQueueBySocket socketId s) := by
  unfold removeFromQueueBySocket
  refine @foldl_preserve (String × Player) MMState NoStarting _ ?_ _ _ hs
  intro st e hst
  by_cases hc : e.2.socketId = socketId
  · rw [if_pos hc]
    exact hst
  · rw [if_neg hc]
    exact hst

theorem ns_disconnectStep (socketId matchId : String) (now : Int)
    (acc : MMState × List Effect) (e : String × Player)
    (hs : NoStarting acc.1) :
    NoStarting (disconnectStep socketId matchId now acc e).1 := by
  unfold disconnectStep
  by_cases hc : e.2.socketId = socketId
  · rw [if_pos hc]
    cases hm : mapGet acc.1.matchesMap matchId with
    | none => exact hs
    | some m0 =>
      dsimp only
      have hs1 : NoStarting
          { acc.1 with
            matchesMap := mapSet acc.1.matchesMap matchId
              { m0 with players := mapDelete m0.players e.1 },
            playerToMatch := mapDelete acc.1.playerToMatch e.1 } := by
        intro mid m h
        rcases mapGet_mapSet_cases acc.1.matchesMap matchId mid _ m h
          with ⟨_, hv⟩ | hold
        · rw [hv]
          exact hs matchId m0 hm
        · exact hs mid m hold
      by_cases hz : (mapDelete m0.players e.1).length = 0
      · rw [if_pos hz]
        exact ns_endMatch matchId now _ hs1
      · rw [if_neg hz]
        exact hs1
  · rw [if_neg hc]
    exact hs

theorem ns_handleDisconnect (socketId : String) (now : Int) (s : MMState)
    (hs : NoStarting s) : NoStarting (handleDisconnect socketId now s).1 := by
  unfold handleDisconnect handleDisconnectMatches
  refine @foldl_preserve (String × GameMatch) (MMState × List Effect)
    (fun acc => NoStarting acc.1) _ ?_ _ _
    (ns_removeFromQueueBySocket socketId s hs)
  intro acc me hacc
  exact @foldl_preserve (String × Player) (MMState × List Effect)
    (fun acc => NoStarting acc.1) _
    (fun acc e h => ns_disconnectStep socketId me.1 now acc e h)
    me.2.players acc hacc

/-- C8 (amended).  Statuses move `waiting → active → finished` only in
the sense that `createMatch` registers matches as `waiting`, `startMatch`
sets `active` and `endMatch` sets `finished`; the `starting` value is
never assigned by any operation.  But neither `startMatch` nor `endMatch`
guards on the current status: `endMatch` finishes a match of any status —
so a `waiting` match whose roster empties by disconnects moves directly
to `finished` — and `startMatch` would likewise re-activate a `finished`
match when its deferred timer fires. -/
theorem C8_amended (s : MMState) (hs : NoStarting s)
    (socketId userId username newMatchId matchId : String)
    (timestamp now : Int) (m0 : GameMatch) :
    (s.queuePlayers.length ≥ MATCH_SIZE →
      ∃ mc, mapGet ((createMatch newMatchId s).1).matchesMap newMatchId =
          some mc ∧ mc.status = MatchStatus.waiting) ∧
    (mapGet s.matchesMap matchId = some m0 →
      ∃ m', mapGet ((startMatch matchId now s).1).matchesMap matchId =
          some m' ∧ m'.status = MatchStatus.active ∧ m'.startTime = some now) ∧
    (mapGet s.matchesMap matchId = some m0 →
      ∃ m', mapGet ((endMatch matchId now s).1).matchesMap matchId =
          some m' ∧ m'.status = MatchStatus.finished ∧ m'.endTime = some now) ∧
    NoStarting (handleJoinQueue socketId userId username newMatchId s).1 ∧
    NoStarting (handleLeaveQueue socketId userId s).1 ∧
    NoStarting (createMatch newMatchId s).1 ∧
    NoStarting (handlePlayerReady socketId userId matchId now s).1 ∧
    NoStarting (handleTap socketId userId matchId timestamp now s).1 ∧
    NoStarting (startMatch matchId now s).1 ∧
    NoStarting (endMatch matchId now s).1 ∧
    NoStarting (cleanupMatch matchId s) ∧
    NoStarting (handleDisconnect socketId now s).1 :=
  ⟨fun hlen => createMatch_creates_waiting newMatchId s hlen,
   fun hm => startMatch_sets_active matchId now s m0 hm,
   fun hm => endMatch_sets_finished matchId now s m0 hm,
   ns_handleJoinQueue socketId userId username newMatchId s hs,
   ns_handleLeaveQueue socketId userId s hs,
   ns_createMatch newMatchId s hs,
   ns_handlePlayerReady socketId userId matchId now s hs,
   ns_handleTap socketId userId matchId timestamp now s hs,
   ns_startMatch matchId now s hs,
   ns_endMatch matchId now s hs,
   ns_cleanupMatch matchId s hs,
   ns_handleDisconnect socketId now s hs⟩

/-- C8 amended witness at the waiting fixture. -/
theorem C8_amended_witness :
    (exStateWaiting.queuePlayers.length ≥ MATCH_SIZE →
      ∃ mc, mapGet ((createMatch "m2" exStateWaiting).1).matchesMap "m2" =
          some mc ∧ mc.status = MatchStatus.waiting) ∧
    (mapGet exStateWaiting.matchesMap "m1" = some exMatchWaiting →
      ∃ m', mapGet ((startMatch "m1" 2000 exStateWaiting).1).matchesMap "m1" =
          some m' ∧ m'.status = MatchStatus.active ∧ m'.startTime = some 2000) ∧
    (mapGet exStateWaiting.matchesMap "m1" = some exMatchWaiting →
      ∃ m', mapGet ((endMatch "m1" 2000 exStateWaiting).1).matchesMap "m1" =
          some m' ∧ m'.status = MatchStatus.finished ∧ m'.endTime = some 2000) ∧
    NoStarting (handleJoinQueue "sA" "A" "alice" "m2" exStateWaiting).1 ∧
    NoStarting (handleLeaveQueue "sA" "A" exStateWaiting).1 ∧
    NoStarting (createMatch "m2" exStateWaiting).1 ∧
    NoStarting (handlePlayerReady "sA" "A" "m1" 2000 exStateWaiting).1 ∧
    NoStarting (handleTap "sA" "A" "m1" 100 2000 exStateWaiting).1 ∧
    NoStarting (startMatch "m1" 2000 exStateWaiting).1 ∧
    NoStarting (endMatch "m1" 2000 exStateWaiting).1 ∧
    NoStarting (cleanupMatch "m1" exStateWaiting) ∧
    NoStarting (handleDisconnect "sA" 2000 exStateWaiting).1 :=
  C8_amended exStateWaiting
    (fun mid m h => by
      have h' : mapGet [("m1", exMatchWaiting)] mid = some m := h
      unfold mapGet at h'
      by_cases hm : (("m1", exMatchWaiting) : String × GameMatch).1 = mid
      · rw [find?_key_cons_pos _ _ _ hm] at h'
        simp at h'
        rw [← h']
        decide
      · rw [find?_key_cons_neg _ _ _ hm] at h'
        simp at h')
    "sA" "A" "alice" "m2" "m1" 100 2000 exMatchWaiting

/-! ### Claim C6: the stable descending sort -/

theorem filter_taps_cons_pos (e : ResultEntry) (t : List ResultEntry)
    (k : Nat) (he : e.taps = k) :
    List.filter (fun r => r.taps = k) (e :: t) =
      e :: List.filter (fun r => r.taps = k) t := by
  apply List.filter_cons_of_pos
  simp [he]

theorem filter_taps_cons_neg (e : ResultEntry) (t : List ResultEntry)
    (k : Nat) (he : ¬ e.taps = k) :
    List.filter (fun r => r.taps = k) (e :: t) =
      List.filter (fun r => r.taps = k) t := by
  apply List.filter_cons_of_neg
  simp [he]

theorem mem_insertDesc (x : ResultEntry) (s : List ResultEntry)
    (z : ResultEntry) (hz : z ∈ insertDesc x s) : z = x ∨ z ∈ s := by
  induction s with
  | nil =>
    rw [insertDesc] at hz
    exact Or.inl (List.mem_singleton.mp hz)
  | cons y ys ih =>
    rw [insertDesc] at hz
    by_cases h : y.taps > x.taps
    · rw [if_pos h] at hz
      rcases List.mem_cons.mp hz with hzy | hz'
      · exact Or.inr (hzy ▸ List.mem_cons_self y ys)
      · rcases ih hz' with hx | hys
        · exact Or.inl hx
        · exact Or.inr (List.mem_cons_of_mem y hys)
    · rw [if_neg h] at hz
      rcases List.mem_cons.mp hz with hzx | hz'
      · exact Or.inl hzx
      · exact Or.inr hz'

theorem pairwise_insertDesc (x : ResultEntry) (s : List ResultEntry)
    (hs : List.Pairwise (fun a b => b.taps ≤ a.taps) s) :
    List.Pairwise (fun a b => b.taps ≤ a.taps) (insertDesc x s) := by
  induction s with
  | nil => simp [insertDesc]
  | cons y ys ih =>
    rw [insertDesc]
    rcases List.pairwise_cons.mp hs with ⟨hy, hys⟩
    by_cases h : y.taps > x.taps
    · rw [if_pos h]
      refine List.pairwise_cons.mpr ⟨?_, ih hys⟩
      intro z hz
      rcases mem_insertDesc x ys z hz with hzx | hzys
      · rw [hzx]; exact le_of_lt h
      · exact hy z hzys
    · rw [if_neg h]
      refine List.pairwise_cons.mpr ⟨?_, hs⟩
      intro z hz
      rcases List.mem_cons.mp hz with hzy | hzys
      · rw [hzy]; exact not_lt.mp h
      · exact le_trans (hy z hzys) (not_lt.mp h)

theorem sorted_sortByTapsDesc (l : List ResultEntry) :
    List.Pairwise (fun a b => b.taps ≤ a.taps) (sortByTapsDesc l) := by
  unfold sortByTapsDesc
  induction l with
  | nil => simp
  | cons x t ih =>
    rw [List.foldr_cons]
    exact pairwise_insertDesc x _ ih

theorem insertDesc_perm (x : ResultEntry) (s : List ResultEntry) :
    (insertDesc x s).Perm (x :: s) := by
  induction s with
  | nil => rw [insertDesc]
  | cons y ys ih =>
    rw [insertDesc]
    by_cases h : y.taps > x.taps
    · rw [if_pos h]
      exact (List.Perm.cons y ih).trans (List.Perm.swap x y ys)
    · rw [if_neg h]

theorem perm_sortByTapsDesc (l : List ResultEntry) :
    (sortByTapsDesc l).Perm l := by
  unfold sortByTapsDesc
  induction l with
  | nil => rfl
  | cons x t ih =>
    rw [List.foldr_cons]
    exact (insertDesc_perm x _).trans (List.Perm.cons x ih)

theorem filter_insertDesc_eq (x : ResultEntry) (s : List ResultEntry)
    (k : Nat) (hx : x.taps = k) :
    (insertDesc x s).filter (fun e => e.taps = k) =
      x :: s.filter (fun e => e.taps = k) := by
  induction s with
  | nil =>
    rw [insertDesc, filter_taps_cons_pos x [] k hx]
  | cons y ys ih =>
    rw [insertDesc]
    by_cases h : y.taps > x.taps
    · rw [if_pos h]
      have hy : ¬ y.taps = k := by
        rw [← hx]
        exact Nat.ne_of_gt h
      rw [filter_taps_cons_neg y _ k hy, ih, filter_taps_cons_neg y ys k hy]
    · rw [if_neg h, filter_taps_cons_pos x _ k hx]

theorem filter_insertDesc_ne (x : ResultEntry) (s : List ResultEntry)
    (k : Nat) (hx : ¬ x.taps = k) :
    (insertDesc x s).filter (fun e => e.taps = k) =
      s.filter (fun e => e.taps = k) := by
  induction s with
  | nil =>
    rw [insertDesc, filter_taps_cons_neg x [] k hx]
  | cons y ys ih =>
    rw [insertDesc]
    by_cases h : y.taps > x.taps
    · rw [if_pos h]
      by_cases hy : y.taps = k
      · rw [filter_taps_cons_pos y _ k hy, ih, filter_taps_cons_pos y ys k hy]
      · rw [filter_taps_cons_neg y _ k hy, ih, filter_taps_cons_neg y ys k hy]
    · rw [if_neg h, filter_taps_cons_neg x _ k hx]

/-- Stability of the modelled ECMAScript sort: for every tap count `k`,
the entries with exactly `k` taps appear in the sorted output in the same
order as in the input. -/
theorem filter_sortByTapsDesc (l : List ResultEntry) (k : Nat) :
    (sortByTapsDesc l).filter (fun e => e.taps = k) =
      l.filter (fun e => e.taps = k) := by
  unfold sortByTapsDesc
  induction l with
  | nil => rfl
  | cons x t ih =>
    rw [List.foldr_cons]
    by_cases hx : x.taps = k
    · rw [filter_insertDesc_eq x _ k hx, ih, filter_taps_cons_pos x t k hx]
    · rw [filter_insertDesc_ne x _ k hx, ih, filter_taps_cons_neg x t k hx]

/-- The winner fold picks the first player attaining the maximum: the
input splits as `l₁ ++ winner :: l₂` with every player bounded by the
winner and every *earlier* player strictly below it (so ties go to the
earlier player). -/
theorem firstMax_split (ps : List Player) (w : Player) :
    ∃ l₁ l₂, w :: ps = l₁ ++ (firstMax w ps) :: l₂ ∧
      (∀ p ∈ w :: ps, p.validatedTaps ≤ (firstMax w ps).validatedTaps) ∧
      (∀ p ∈ l₁, p.validatedTaps < (firstMax w ps).validatedTaps) := by
  induction ps generalizing w with
  | nil =>
    refine ⟨[], [], rfl, ?_, by simp⟩
    intro p hp
    rw [List.mem_singleton.mp hp]
    exact le_refl _
  | cons p t ih =>
    by_cases h : p.validatedTaps > w.validatedTaps
    · rw [show firstMax w (p :: t) = firstMax p t from by rw [firstMax, if_pos h]]
      obtain ⟨l₁, l₂, heq, hmax, hlt⟩ := ih p
      refine ⟨w :: l₁, l₂, ?_, ?_, ?_⟩
      · rw [List.cons_append, ← heq]
      · intro q hq
        rcases List.mem_cons.mp hq with hqw | hqr
        · rw [hqw]
          exact le_of_lt (lt_of_lt_of_le h (hmax p (List.mem_cons_self p t)))
        · exact hmax q hqr
      · intro q hq
        rcases List.mem_cons.mp hq with hqw | hql
        · rw [hqw]
          exact lt_of_lt_of_le h (hmax p (List.mem_cons_self p t))
        · exact hlt q hql
    · rw [show firstMax w (p :: t) = firstMax w t from by rw [firstMax, if_neg h]]
      obtain ⟨l₁, l₂, heq, hmax, hlt⟩ := ih w
      cases l₁ with
      | nil =>
        simp only [List.nil_append] at heq
        have hfm : firstMax w t = w := (List.cons_eq_cons.mp heq).1.symm
        have hl₂ : t = l₂ := (List.cons_eq_cons.mp heq).2
        refine ⟨[], p :: t, ?_, ?_, by simp⟩
        · rw [List.nil_append, hfm]
        · intro q hq
          rcases List.mem_cons.mp hq with hqw | hqr
          · rw [hqw, hfm]
          · rcases List.mem_cons.mp hqr with hqp | hqt
            · rw [hqp, hfm]
              exact not_lt.mp h
            · exact hmax q (List.mem_cons_of_mem w hqt)
      | cons a l₁' =>
        rw [List.cons_append] at heq
        have haw : a = w := (List.cons_eq_cons.mp heq).1.symm
        have ht : t = l₁' ++ firstMax w t :: l₂ := (List.cons_eq_cons.mp heq).2
        refine ⟨w :: p :: l₁', l₂, ?_, ?_, ?_⟩
        · rw [List.cons_append, List.cons_append, ← ht]
        · intro q hq
          rcases List.mem_cons.mp hq with hqw | hqr
          · rw [hqw]
            exact hmax w (List.mem_cons_self w t)
          · rcases List.mem_cons.mp hqr with hqp | hqt
            · rw [hqp]
              exact le_trans (not_lt.mp h) (hmax w (List.mem_cons_self w t))
            · exact hmax q (List.mem_cons_of_mem w hqt)
        · intro q hq
          have hwlt : w.validatedTaps < (firstMax w t).validatedTaps := by
            have := hlt a (List.mem_cons_self a l₁')
            rwa [haw] at this
          rcases List.mem_cons.mp hq with hqw | hqr
          · rw [hqw]; exact hwlt
          · rcases List.mem_cons.mp hqr with hqp | hql
            · rw [hqp]
              exact lt_of_le_of_lt (not_lt.mp h) hwlt
            · exact hlt q (List.mem_cons_of_mem a hql)

/-! ### Claim C6: roster order and the full end-of-match statement -/

theorem mapHas_append (l1 l2 : List (String × α)) (k : String) :
    mapHas (l1 ++ l2) k = (mapHas l1 k || mapHas l2 k) := by
  unfold mapHas
  rw [List.find?_append]
  cases h1 : l1.find? (fun e => e.1 = k) <;> simp

theorem mapSet_absent (m : List (String × α)) (k : String) (v : α)
    (h : mapHas m k = false) : mapSet m k v = m ++ [(k, v)] := by
  unfold mapSet
  rw [if_neg (by simp [h])]

theorem mapHas_singleton_ne (k' k : String) (v : α) (h : ¬ k' = k) :
    mapHas [(k', v)] k = false := by
  unfold mapHas
  rw [find?_key_cons_neg (k', v) [] k h]
  rfl

theorem foldl_build_players (chosen : List Player) :
    ∀ acc : List (String × Player),
      (∀ p ∈ chosen, mapHas acc p.id = false) →
      (chosen.map Player.id).Nodup →
      chosen.foldl (fun acc p => mapSet acc p.id p) acc =
        acc ++ chosen.map (fun p => (p.id, p)) := by
  induction chosen with
  | nil => intro acc _ _; simp
  | cons p t ih =>
    intro acc habs hnd
    rw [List.foldl_cons,
      mapSet_absent acc p.id p (habs p (List.mem_cons_self p t))]
    have hpn := (List.nodup_cons.mp hnd).1
    have habs' : ∀ q ∈ t, mapHas (acc ++ [(p.id, p)]) q.id = false := by
      intro q hq
      rw [mapHas_append,
        habs q (List.mem_cons_of_mem p hq),
        mapHas_singleton_ne p.id q.id p
          (fun he => hpn (by rw [he]; exact List.mem_map.mpr ⟨q, hq, rfl⟩))]
      rfl
    rw [ih (acc ++ [(p.id, p)]) habs' (List.nodup_cons.mp hnd).2]
    simp

theorem createMatch_fold_fst (nid : String) (chosen : List Player) :
    ∀ (l : List (String × Player)) (st : MMState),
      (chosen.foldl
        (fun (acc : List (String × Player) × MMState) p =>
          (mapSet acc.1 p.id p,
           { acc.2 with
             queuePlayers := mapDelete acc.2.queuePlayers p.id,
             playerQueue := mapDelete acc.2.playerQueue p.id,
             playerToMatch := mapSet acc.2.playerToMatch p.id nid }))
        (l, st)).1 =
      chosen.foldl (fun acc p => mapSet acc p.id p) l := by
  induction chosen with
  | nil => intro l st; rfl
  | cons p t ih =>
    intro l st
    rw [List.foldl_cons, List.foldl_cons]
    exact ih (mapSet l p.id p) _

/-- Pairing takes exactly the first `MATCH_SIZE` queued players, in queue
insertion order, as the roster of the created match. -/
theorem createMatch_roster (nid : String) (s' : MMState)
    (hlen : s'.queuePlayers.length ≥ MATCH_SIZE)
    (hnd : ((mapValues s'.queuePlayers).map Player.id).Nodup) :
    ∃ mc, mapGet ((createMatch nid s').1).matchesMap nid = some mc ∧
      mapValues mc.players = (mapValues s'.queuePlayers).take MATCH_SIZE := by
  unfold createMatch
  rw [if_neg (not_lt.mpr hlen)]
  refine ⟨_, mapGet_mapSet_self _ nid _, ?_⟩
  rw [createMatch_fold_fst nid _ [] s']
  have hchnd :
      ((((mapValues s'.queuePlayers).take MATCH_SIZE)).map Player.id).Nodup := by
    rw [List.map_take]
    exact (List.take_sublist _ _).nodup hnd
  rw [foldl_build_players _ [] (fun p _ => rfl) hchnd]
  simp [mapValues]
  rfl

/-- C6.  When `endMatch` determines the outcome of a non-empty match:
the winner is the first roster player attaining the maximal
`validatedTaps` (strictly greater than every earlier player — ties go to
the earlier-inserted player); the broadcast `results` array is the stable
descending-by-taps sort of the roster-order entries (sorted descending,
a permutation of the roster entries, and for every tap count the tied
entries keep roster order); every `match_ended` broadcast carries exactly
these results and this winner; and the roster order itself is the Queue
insertion order, because `createMatch` takes the first `MATCH_SIZE`
queued players in order. -/
theorem C6_winner_and_results (s : MMState) (matchId : String) (now : Int)
    (m : GameMatch) (hm : mapGet s.matchesMap matchId = some m)
    (p0 : Player) (ps0 : List Player)
    (hne : mapValues m.players = p0 :: ps0) :
    ∃ m2, mapGet ((endMatch matchId now s).1).matchesMap matchId = some m2 ∧
      (∃ w l₁ l₂, m2.winner = some w.id ∧
        mapValues m.players = l₁ ++ w :: l₂ ∧
        (∀ p ∈ mapValues m.players, p.validatedTaps ≤ w.validatedTaps) ∧
        (∀ p ∈ l₁, p.validatedTaps < w.validatedTaps)) ∧
      matchResults m2 = sortByTapsDesc (rosterEntries m2) ∧
      List.Pairwise (fun a b => b.taps ≤ a.taps) (matchResults m2) ∧
      (matchResults m2).Perm (rosterEntries m2) ∧
      (∀ k, (matchResults m2).filter (fun e => e.taps = k) =
        (rosterEntries m2).filter (fun e => e.taps = k)) ∧
      (endMatch matchId now s).2 =
        (mapValues m2.players).map (fun p =>
          Effect.matchEnded p.socketId matchId (matchResults m2) m2.winner)
          ++ [Effect.schedCleanup matchId 5000] ∧
      (∀ nid s', s'.queuePlayers.length ≥ MATCH_SIZE →
        ((mapValues s'.queuePlayers).map Player.id).Nodup →
        ∃ mc, mapGet ((createMatch nid s').1).matchesMap nid = some mc ∧
          mapValues mc.players = (mapValues s'.queuePlayers).take MATCH_SIZE) := by
  have hget : mapGet ((endMatch matchId now s).1).matchesMap matchId =
      some (endedMatch m now) := by
    rw [endMatch_eq_some matchId now s m hm]
    exact mapGet_mapSet_self s.matchesMap matchId (endedMatch m now)
  refine ⟨endedMatch m now, hget, ?_, rfl, sorted_sortByTapsDesc _,
    perm_sortByTapsDesc _, fun k => filter_sortByTapsDesc _ k, ?_, ?_⟩
  · have hw : computeWinner (mapValues m.players) =
        some (firstMax p0 ps0) := by
      rw [hne, computeWinner_cons]
    obtain ⟨l₁, l₂, heq, hmax, hlt⟩ := firstMax_split ps0 p0
    refine ⟨firstMax p0 ps0, l₁, l₂,
      endedMatch_winner_of_some m now _ hw, ?_, ?_, hlt⟩
    · rw [hne, heq]
    · intro p hp
      exact hmax p (by rwa [hne] at hp)
  · rw [endMatch_eq_some matchId now s m hm]
  · intro nid s' hlen hnd
    exact createMatch_roster nid s' hlen hnd

/-- C6 witness at the active two-player fixture ended at 500 ms. -/
theorem C6_winner_and_results_witness :
    ∃ m2, mapGet ((endMatch "m1" 500 exStateActive).1).matchesMap "m1" =
        some m2 ∧
      (∃ w l₁ l₂, m2.winner = some w.id ∧
        mapValues exMatchActive.players = l₁ ++ w :: l₂ ∧
        (∀ p ∈ mapValues exMatchActive.players,
          p.validatedTaps ≤ w.validatedTaps) ∧
        (∀ p ∈ l₁, p.validatedTaps < w.validatedTaps)) ∧
      matchResults m2 = sortByTapsDesc (rosterEntries m2) ∧
      List.Pairwise (fun a b => b.taps ≤ a.taps) (matchResults m2) ∧
      (matchResults m2).Perm (rosterEntries m2) ∧
      (∀ k, (matchResults m2).filter (fun e => e.taps = k) =
        (rosterEntries m2).filter (fun e => e.taps = k)) ∧
      (endMatch "m1" 500 exStateActive).2 =
        (mapValues m2.players).map (fun p =>
          Effect.matchEnded p.socketId "m1" (matchResults m2) m2.winner)
          ++ [Effect.schedCleanup "m1" 5000] ∧
      (∀ nid s', s'.queuePlayers.length ≥ MATCH_SIZE →
        ((mapValues s'.queuePlayers).map Player.id).Nodup →
        ∃ mc, mapGet ((createMatch nid s').1).matchesMap nid = some mc ∧
          mapValues mc.players = (mapValues s'.queuePlayers).take MATCH_SIZE) :=
  C6_winner_and_results exStateActive "m1" 500 exMatchActive (by rfl)
    exPlayerA [exPlayerB] (by rfl)

end TapRace
